import Mathlib

/-!
Verification development for the Wwise DSL bidirectional compiler.

Shallow embedding of three Python components:
- the forward compiler `DSLParser` (dsl_parser.py): line grammar recognition,
  type and reference normalization, parent resolution, plan-step emission;
- the reverse compiler `WwiseReverseCompilerV3` (app_reverse.py): subtree
  extraction to DSL and complexity classification;
- the validator `DSLValidatorV2` (dsl_validator.py): syntax, semantic and
  dependency levels with a batch-scoped created-object set.

Python strings are modeled as `String`, regular expressions as hand-rolled
recognizers of the same languages, dictionaries as association lists in
insertion order, Python `None`-able values as `Option`, float values as `Rat`.
-/

namespace Wwise

/-! ## Character classes and small string utilities -/

/-- Python regex `\s` (whitespace of `str.strip()` and `re`), ASCII range. -/
def isPySpace (c : Char) : Bool :=
  c = ' ' || c = '\t' || c = '\n' || c = '\r' || c = '\x0b' || c = '\x0c'

/-- Python regex `\w` (word character), ASCII range. -/
def isWordChar (c : Char) : Bool :=
  c.isAlphanum || c = '_'

/-- Python `str.strip()` on a character list. -/
def pyStripL (l : List Char) : List Char :=
  ((l.dropWhile isPySpace).reverse.dropWhile isPySpace).reverse

/-- Python `str.strip()`. -/
def pyStrip (s : String) : String := ⟨pyStripL s.toList⟩

/-- Python `str.lower()`, ASCII case folding. -/
def pyLower (s : String) : String := ⟨s.toList.map Char.toLower⟩

/-- Contiguous-sublist test on character lists. -/
def listInfix (pat : List Char) : List Char → Bool
  | [] => pat.isEmpty
  | c :: cs => pat.isPrefixOf (c :: cs) || listInfix pat cs

/-- Substring test, Python `a in b` for strings. -/
def strIn (pat s : String) : Bool :=
  listInfix pat.toList s.toList

/-- Python `str.startswith`. -/
def pyStarts (s pre : String) : Bool :=
  pre.toList.isPrefixOf s.toList

/-- Association-list lookup mirroring Python `dict.get` (keys are unique,
so first match equals dict semantics). -/
def lookupTab {β : Type} : List (String × β) → String → Option β
  | [], _ => none
  | (k, v) :: rest, s => if s = k then some v else lookupTab rest s

/-- Python `dict.get(s, s)`: table lookup with the token itself as fallback. -/
def lookupFix (tab : List (String × String)) (s : String) : String :=
  (lookupTab tab s).getD s

/-! ## The static tables of DSLParser (`ref_map`, `type_fix`, `action_types`) -/

/-- `self.ref_map` from dsl_parser.py, in source order. -/
def refMap : List (String × String) :=
  [("OutputBus", "OutputBus"),
   ("Bus", "OutputBus"),
   ("Target", "Target"),
   ("SwitchGroupOrStateGroup", "SwitchGroupOrStateGroup"),
   ("SwitchGroup", "SwitchGroupOrStateGroup"),
   ("StateGroup", "StateGroup"),
   ("Attenuation", "Attenuation"),
   ("Effect0", "Effect0"),
   ("Effect1", "Effect1"),
   ("Effect2", "Effect2"),
   ("Effect3", "Effect3"),
   ("GameParameter", "GameParameter"),
   ("Conversion", "Conversion"),
   ("UserAuxSend0", "UserAuxSend0"),
   ("UserAuxSend1", "UserAuxSend1")]

/-- `self.type_fix` from dsl_parser.py, in source order. -/
def typeFix : List (String × String) :=
  [("Actor-Mixer", "ActorMixer"),
   ("ActorMixer", "ActorMixer"),
   ("Random Sequence Container", "RandomSequenceContainer"),
   ("RandomSequenceContainer", "RandomSequenceContainer"),
   ("RandomContainer", "RandomSequenceContainer"),
   ("SequenceContainer", "RandomSequenceContainer"),
   ("Switch Container", "SwitchContainer"),
   ("SwitchContainer", "SwitchContainer"),
   ("Blend Container", "BlendContainer"),
   ("BlendContainer", "BlendContainer"),
   ("Folder", "Folder"),
   ("Switch Group", "SwitchGroup"),
   ("SwitchGroup", "SwitchGroup"),
   ("State Group", "StateGroup"),
   ("StateGroup", "StateGroup"),
   ("Game Parameter", "GameParameter"),
   ("GameParameter", "GameParameter"),
   ("RTPC", "GameParameter"),
   ("Work Unit", "WorkUnit"),
   ("WorkUnit", "WorkUnit"),
   ("Event", "Event"),
   ("Sound", "Sound"),
   ("SoundSFX", "Sound"),
   ("SoundVoice", "Sound"),
   ("Bus", "Bus"),
   ("AudioBus", "Bus"),
   ("Aux Bus", "AuxBus"),
   ("AuxBus", "AuxBus"),
   ("AuxiliaryBus", "AuxBus"),
   ("Action", "Action"),
   ("Effect", "Effect"),
   ("AcousticTexture", "AcousticTexture"),
   ("Attenuation", "Attenuation")]

/-- `self.action_types` from dsl_parser.py. -/
def actionTypes : List (String × Int) :=
  [("play", 1), ("stop", 2), ("pause", 3), ("resume", 4), ("break", 5),
   ("seek", 6), ("setswitch", 19), ("setstate", 18), ("setgameparameter", 17),
   ("resetgameparameter", 20), ("mute", 7), ("unmute", 8)]

/-- `normalize_type`: `self.type_fix.get(raw_type, raw_type)`. -/
def normalizeType (s : String) : String := lookupFix typeFix s

/-- `normalize_reference`: `self.ref_map.get(link_type, link_type)`. -/
def normalizeReference (s : String) : String := lookupFix refMap s

/-! ## Claim C4: totality and idempotence of normalization -/

theorem lookupTab_mem_snd {β : Type} {tab : List (String × β)} {x : String}
    {v : β} (h : lookupTab tab x = some v) : v ∈ tab.map Prod.snd := by
  induction tab with
  | nil => simp [lookupTab] at h
  | cons hd tl ih =>
      simp only [lookupTab] at h
      by_cases hx : x = hd.1
      · simp [hx] at h
        simp [← h]
      · simp [hx] at h
        simp [ih h]

theorem typeFix_values_fixed :
    ∀ v ∈ typeFix.map Prod.snd, lookupTab typeFix v = some v := by decide

theorem refMap_values_fixed :
    ∀ v ∈ refMap.map Prod.snd, lookupTab refMap v = some v := by decide

/-- C4: type normalization and reference normalization are total and
idempotent, and an unmatched token is returned unchanged. -/
theorem normalize_total_idempotent (x : String) :
    normalizeType (normalizeType x) = normalizeType x ∧
    normalizeReference (normalizeReference x) = normalizeReference x ∧
    (lookupTab typeFix x = none → normalizeType x = x) ∧
    (lookupTab refMap x = none → normalizeReference x = x) := by
  refine ⟨?_, ?_, ?_, ?_⟩
  · unfold normalizeType lookupFix
    cases h : lookupTab typeFix x with
    | none => simp [h]
    | some v =>
        have hv := typeFix_values_fixed v (lookupTab_mem_snd h)
        simp [h, hv]
  · unfold normalizeReference lookupFix
    cases h : lookupTab refMap x with
    | none => simp [h]
    | some v =>
        have hv := refMap_values_fixed v (lookupTab_mem_snd h)
        simp [h, hv]
  · intro h; simp [normalizeType, lookupFix, h]
  · intro h; simp [normalizeReference, lookupFix, h]

/-- C4 witness: a token absent from both tables is left unchanged. -/
theorem normalize_total_idempotent_witness :
    lookupTab typeFix "Banana" = none ∧ normalizeType "Banana" = "Banana" ∧
    lookupTab refMap "Banana" = none ∧
    normalizeReference "Banana" = "Banana" :=
  ⟨by decide, ((normalize_total_idempotent "Banana").2.2.1 (by decide)),
   by decide, ((normalize_total_idempotent "Banana").2.2.2 (by decide))⟩

/-! ## Line grammar recognizers

Each `match...` function below recognizes exactly the language of the
corresponding `re.match` pattern of `_parse_single_line` (anchored at the
start of the line, case-insensitive keywords, trailing text ignored) and
returns the captured groups. -/

/-- Consume a keyword literal case-insensitively (regex literal text). -/
def dropLit : List Char → List Char → Option (List Char)
  | [], s => some s
  | k :: ks, c :: cs => if c.toLower = k.toLower then dropLit ks cs else none
  | _ :: _, [] => none

/-- Regex `\s+`. -/
def dropSpaces1 : List Char → Option (List Char)
  | c :: cs => if isPySpace c then some (cs.dropWhile isPySpace) else none
  | [] => none

/-- Regex `"([^"]+)"`: a double-quoted nonempty run of non-quote characters;
returns the body and the remainder after the closing quote. -/
def takeQuoted (l : List Char) : Option (String × List Char) :=
  match l with
  | '"' :: cs =>
      let body := cs.takeWhile (fun c => c ≠ '"')
      match cs.dropWhile (fun c => c ≠ '"') with
      | '"' :: rest => if body.isEmpty then none else some (⟨body⟩, rest)
      | _ => none
  | _ => none

/-- Greedy `\s*` followed by greedy `(.+)` (as in `\s*=\s*(.+)`): the group
starts after the longest whitespace prefix that still leaves a non-newline
character (backtracking one whitespace character when the rest of the line
is blank), and extends to the next newline. -/
def dotPlusTail (r : List Char) : Option String :=
  let w := r.takeWhile isPySpace
  let rest := r.drop w.length
  match rest with
  | _ :: _ => some ⟨rest.takeWhile (fun c => c ≠ '\n')⟩
  | [] =>
      match r.reverse.dropWhile (fun c => c = '\n') with
      | c :: _ => some ⟨[c]⟩
      | [] => none

/-- `CREATE\s+(\w+[\-\w\s]*)\s+"([^"]+)"\s+UNDER\s+"([^"]+)"`; the type
group is returned already stripped, as `_parse_single_line` immediately
applies `.strip()` to it. -/
def matchCreate (l : List Char) : Option (String × String × String) := do
  let r1 ← dropLit "CREATE".toList l
  let r2 ← dropSpaces1 r1
  let seg := r2.takeWhile (fun c => c ≠ '"')
  let rest := r2.dropWhile (fun c => c ≠ '"')
  match seg with
  | [] => none
  | c0 :: _ =>
      if isWordChar c0 &&
         seg.all (fun c => isWordChar c || isPySpace c || c = '-') &&
         isPySpace (seg.getLastD '"') then
        let (name, r3) ← takeQuoted rest
        let r4 ← dropSpaces1 r3
        let r5 ← dropLit "UNDER".toList r4
        let r6 ← dropSpaces1 r5
        let (parent, _) ← takeQuoted r6
        some (⟨pyStripL seg⟩, name, parent)
      else none

/-- `SET_PROP\s+"([^"]+)"\s+"([^"]+)"\s*=\s*(.+)`. -/
def matchSetProp (l : List Char) : Option (String × String × String) := do
  let r1 ← dropLit "SET_PROP".toList l
  let r2 ← dropSpaces1 r1
  let (obj, r3) ← takeQuoted r2
  let r4 ← dropSpaces1 r3
  let (prop, r5) ← takeQuoted r4
  match r5.dropWhile isPySpace with
  | '=' :: r6 => do
      let v ← dotPlusTail r6
      some (obj, prop, v)
  | _ => none

/-- `LINK\s+"([^"]+)"\s+TO\s+"([^"]+)"\s+AS\s+"([^"]+)"`. -/
def matchLink (l : List Char) : Option (String × String × String) := do
  let r1 ← dropLit "LINK".toList l
  let r2 ← dropSpaces1 r1
  let (child, r3) ← takeQuoted r2
  let r4 ← dropSpaces1 r3
  let r5 ← dropLit "TO".toList r4
  let r6 ← dropSpaces1 r5
  let (target, r7) ← takeQuoted r6
  let r8 ← dropSpaces1 r7
  let r9 ← dropLit "AS".toList r8
  let r10 ← dropSpaces1 r9
  let (ltype, _) ← takeQuoted r10
  some (child, target, ltype)

/-- `ASSIGN\s+"([^"]+)"\s+TO\s+"([^"]+)"`. -/
def matchAssign (l : List Char) : Option (String × String) := do
  let r1 ← dropLit "ASSIGN".toList l
  let r2 ← dropSpaces1 r1
  let (child, r3) ← takeQuoted r2
  let r4 ← dropSpaces1 r3
  let r5 ← dropLit "TO".toList r4
  let r6 ← dropSpaces1 r5
  let (state, _) ← takeQuoted r6
  some (child, state)

/-- `ADD_ACTION\s+"([^"]+)"\s+(\w+)\s+"([^"]+)"(?:\s+"([^"]+)")?`. -/
def matchAddAction (l : List Char) :
    Option (String × String × String × Option String) := do
  let r1 ← dropLit "ADD_ACTION".toList l
  let r2 ← dropSpaces1 r1
  let (ev, r3) ← takeQuoted r2
  let r4 ← dropSpaces1 r3
  let w := r4.takeWhile isWordChar
  if w.isEmpty then none
  else do
    let r5 ← dropSpaces1 (r4.drop w.length)
    let (target, r6) ← takeQuoted r5
    let extra : Option String := do
      let r7 ← dropSpaces1 r6
      let (ex, _) ← takeQuoted r7
      some ex
    some (ev, ⟨w⟩, target, extra)

/-- `CREATE_EVENT\s+"([^"]+)"(?:\s+UNDER\s+"([^"]+)")?\s+PLAY\s+"([^"]+)"`,
with the greedy optional `UNDER` clause tried first (regex backtracking). -/
def matchCreateEvent (l : List Char) :
    Option (String × Option String × String) := do
  let r1 ← dropLit "CREATE_EVENT".toList l
  let r2 ← dropSpaces1 r1
  let (ev, r3) ← takeQuoted r2
  let withUnder : Option (String × Option String × String) := do
    let r4 ← dropSpaces1 r3
    let r5 ← dropLit "UNDER".toList r4
    let r6 ← dropSpaces1 r5
    let (par, r7) ← takeQuoted r6
    let r8 ← dropSpaces1 r7
    let r9 ← dropLit "PLAY".toList r8
    let r10 ← dropSpaces1 r9
    let (tgt, _) ← takeQuoted r10
    some (ev, some par, tgt)
  match withUnder with
  | some res => some res
  | none => do
      let r4 ← dropSpaces1 r3
      let r5 ← dropLit "PLAY".toList r4
      let r6 ← dropSpaces1 r5
      let (tgt, _) ← takeQuoted r6
      some (ev, none, tgt)

/-- `IMPORT_AUDIO\s+"([^"]+)"\s+INTO\s+"([^"]+)"(?:\s+AS\s+"([^"]+)")?`. -/
def matchImportAudio (l : List Char) :
    Option (String × String × Option String) := do
  let r1 ← dropLit "IMPORT_AUDIO".toList l
  let r2 ← dropSpaces1 r1
  let (fp, r3) ← takeQuoted r2
  let r4 ← dropSpaces1 r3
  let r5 ← dropLit "INTO".toList r4
  let r6 ← dropSpaces1 r5
  let (par, r7) ← takeQuoted r6
  let asName : Option String := do
    let r8 ← dropSpaces1 r7
    let r9 ← dropLit "AS".toList r8
    let r10 ← dropSpaces1 r9
    let (sn, _) ← takeQuoted r10
    some sn
  some (fp, par, asName)

/-- `SET_RTPC_CURVE\s+"([^"]+)"\s+"([^"]+)"\s+"([^"]+)"\s+POINTS\s+\[(.+)\]`:
the bracket group is greedy, so it extends to the last closing bracket on
the line and must be nonempty. -/
def matchRtpc (l : List Char) :
    Option (String × String × String × String) := do
  let r1 ← dropLit "SET_RTPC_CURVE".toList l
  let r2 ← dropSpaces1 r1
  let (obj, r3) ← takeQuoted r2
  let r4 ← dropSpaces1 r3
  let (param, r5) ← takeQuoted r4
  let r6 ← dropSpaces1 r5
  let (prop, r7) ← takeQuoted r6
  let r8 ← dropSpaces1 r7
  let r9 ← dropLit "POINTS".toList r8
  let r10 ← dropSpaces1 r9
  match r10 with
  | '[' :: rest =>
      let t0 := rest.takeWhile (fun c => c ≠ '\n')
      match t0.reverse.dropWhile (fun c => c ≠ ']') with
      | ']' :: revPts =>
          if revPts.isEmpty then none
          else some (obj, param, prop, ⟨revPts.reverse⟩)
      | _ => none
  | _ => none

/-- `DELETE\s+"([^"]+)"`. -/
def matchDelete (l : List Char) : Option String := do
  let r1 ← dropLit "DELETE".toList l
  let r2 ← dropSpaces1 r1
  let (obj, _) ← takeQuoted r2
  some obj

/-- `COPY\s+"([^"]+)"\s+TO\s+"([^"]+)"\s+AS\s+"([^"]+)"`. -/
def matchCopy (l : List Char) : Option (String × String × String) := do
  let r1 ← dropLit "COPY".toList l
  let r2 ← dropSpaces1 r1
  let (src, r3) ← takeQuoted r2
  let r4 ← dropSpaces1 r3
  let r5 ← dropLit "TO".toList r4
  let r6 ← dropSpaces1 r5
  let (par, r7) ← takeQuoted r6
  let r8 ← dropSpaces1 r7
  let r9 ← dropLit "AS".toList r8
  let r10 ← dropSpaces1 r9
  let (nn, _) ← takeQuoted r10
  some (src, par, nn)

/-- `MOVE\s+"([^"]+)"\s+TO\s+"([^"]+)"`. -/
def matchMove (l : List Char) : Option (String × String) := do
  let r1 ← dropLit "MOVE".toList l
  let r2 ← dropSpaces1 r1
  let (obj, r3) ← takeQuoted r2
  let r4 ← dropSpaces1 r3
  let r5 ← dropLit "TO".toList r4
  let r6 ← dropSpaces1 r5
  let (par, _) ← takeQuoted r6
  some (obj, par)

/-- `RENAME\s+"([^"]+)"\s+TO\s+"([^"]+)"`. -/
def matchRename (l : List Char) : Option (String × String) := do
  let r1 ← dropLit "RENAME".toList l
  let r2 ← dropSpaces1 r1
  let (old, r3) ← takeQuoted r2
  let r4 ← dropSpaces1 r3
  let r5 ← dropLit "TO".toList r4
  let r6 ← dropSpaces1 r5
  let (nn, _) ← takeQuoted r6
  some (old, nn)

/-! ## Value coercion (`_parse_val`) and numeric literals -/

/-- Python values as they occur in plan-step arguments. Python floats are
modeled by their exact decimal value as a rational; decimal literals of the
corpus are exactly representable, and no claim compares float round-off. -/
inductive PVal where
  | pb (b : Bool)
  | pi (n : Int)
  | pf (q : Rat)
  | ps (s : String)
deriving DecidableEq, Repr

def digitsVal (l : List Char) : Nat :=
  l.foldl (fun a c => a * 10 + (c.toNat - 48)) 0

/-- Python `int(s)`: optional sign, one or more digits, optional surrounding
whitespace. (Python additionally allows single grouping underscores between
digits; the corpus never uses them.) -/
def pyInt? (s : String) : Option Int :=
  let l := pyStripL s.toList
  let core : List Char → Option Nat := fun d =>
    if d.isEmpty || !(d.all Char.isDigit) then none else some (digitsVal d)
  match l with
  | '+' :: d => (core d).map Int.ofNat
  | '-' :: d => (core d).map (fun n => -(n : Int))
  | d => (core d).map Int.ofNat

/-- Python `float(s)` for finite decimal literals: optional sign, digits
with at most one dot (at least one digit overall), optional exponent,
optional surrounding whitespace; the exact value is returned as a rational.
(The special forms inf and nan are not representable and not modeled; the
corpus contains only finite decimals.) -/
def pyFloat? (s : String) : Option Rat :=
  let l := pyStripL s.toList
  let signSplit : List Char → Rat × List Char := fun m =>
    match m with
    | '+' :: r => (1, r)
    | '-' :: r => (-1, r)
    | r => (1, r)
  let (sgn, l1) := signSplit l
  let d1 := l1.takeWhile Char.isDigit
  let r1 := l1.drop d1.length
  let (d2, r2) : List Char × List Char :=
    match r1 with
    | '.' :: rr => (rr.takeWhile Char.isDigit, rr.drop (rr.takeWhile Char.isDigit).length)
    | _ => ([], r1)
  if d1.isEmpty && d2.isEmpty then none
  else
    let base : Rat := (digitsVal (d1 ++ d2) : Nat) / ((10 : Rat) ^ d2.length)
    match r2 with
    | [] => some (sgn * base)
    | e :: rr =>
        if e = 'e' || e = 'E' then
          let (esgn, rr1) : Int × List Char :=
            match rr with
            | '+' :: q => (1, q)
            | '-' :: q => (-1, q)
            | q => (1, q)
          let ed := rr1.takeWhile Char.isDigit
          if ed.isEmpty || !(rr1.drop ed.length).isEmpty then none
          else some (sgn * base * (10 : Rat) ^ (esgn * (digitsVal ed : Int)))
        else none

/-- The unit words of `_parse_val`, in source order. -/
def unitWords : List String :=
  ["dB", "db", "DB", "%", "cents", "Cents", "ms", "s", "Hz", "hz"]

/-- Does `\s*(dB|db|DB|%|cents|Cents|ms|s|Hz|hz)$` match this entire tail? -/
def unitTail (l : List Char) : Bool :=
  unitWords.any (fun u => l.dropWhile isPySpace = u.toList)

/-- `re.sub` of the unit pattern: delete from the leftmost position whose
tail is whitespace followed by a unit word at end of string. -/
def stripUnitL : List Char → List Char
  | [] => []
  | c :: cs => if unitTail (c :: cs) then [] else c :: stripUnitL cs

/-- Python `s.startswith(q) and s.endswith(q)` quote peeling of `_parse_val`
(for a one-character string both tests pass and slicing yields ""). -/
def quoteOrRaw (s : String) : PVal :=
  match s.toList with
  | '"' :: rest =>
      if ('"' :: rest).getLastD ' ' = '"' then .ps ⟨rest.dropLast⟩ else .ps s
  | _ => .ps s

/-- `_parse_val`: strip, delete a trailing unit suffix, then try boolean,
then numeric (float when a dot is present, else integer), then peel a
surrounding quote pair, else return the text unchanged. -/
def parseVal (v : String) : PVal :=
  let s1 : String := ⟨stripUnitL (pyStripL v.toList)⟩
  if pyLower s1 = "true" then .pb true
  else if pyLower s1 = "false" then .pb false
  else if strIn "." s1 then
    match pyFloat? s1 with
    | some q => .pf q
    | none => quoteOrRaw s1
  else
    match pyInt? s1 with
    | some n => .pi n
    | none => quoteOrRaw s1

/-! ## Execution-plan steps and the Registry interface -/

/-- One WAAPI execution-plan step: `{"action": ..., "args": {...}}` with the
argument dictionary as an association list in insertion order. Nested
dictionaries (only the audio-import step has them) are flattened into dotted
keys; `retOpts` holds the `options.return` list of the copy step ([] when
the step has no options entry). -/
structure Step where
  action : String
  args : List (String × PVal)
  retOpts : List String
deriving DecidableEq, Repr

/-- The Registry object injected by `set_registry`, reduced to the members
the parser reads: `name_index` (name to candidate paths), `path_map` (path
to GUID), `type_map` (GUID to type), and the three methods `get_guid`,
`is_physical_folder` and `get_path_by_guid`. The Registry class itself is
external to the compiler; it is injected data. -/
structure Registry where
  name_index : List (String × List String)
  path_map : List (String × String)
  type_map : List (String × String)
  guid_of : String → Bool → Option String
  is_physical : String → Bool
  path_by_guid : String → Option String

/-- `self.registry.name_index.get(name, [])`. -/
def lookupPaths (r : Registry) (n : String) : List String :=
  (lookupTab r.name_index n).getD []

/-! ## Parent and reference resolution -/

def masterBusPath : String :=
  "\\Master-Mixer Hierarchy\\Default Work Unit\\Master Audio Bus"

def amDefaultPath : String := "\\Actor-Mixer Hierarchy\\Default Work Unit"

/-- `_resolve_parent_strategy`: the ordered strategies A (absolute path),
B (GUID), C (canonical alias by child kind), D/E (explicit or fuzzy
hierarchy names), F (AI hallucination fix), G (bus double check). -/
def resolveParentStrategy (p childType0 : String) : String :=
  let pLow := pyLower p
  let childType := lookupFix typeFix childType0
  if pyStarts p "\\" then p
  else if pyStarts p "\x7b" && p.endsWith "\x7d" then p
  else if pLow = "default work unit" || pLow = "root" then
    (if childType = "Bus" || childType = "AuxBus" then masterBusPath
     else if childType = "SwitchGroup" || childType = "Switch" then
       "\\Switches\\Default Work Unit"
     else if childType = "StateGroup" || childType = "State" then
       "\\States\\Default Work Unit"
     else if childType = "GameParameter" then
       "\\Game Parameters\\Default Work Unit"
     else if childType = "Event" then "\\Events\\Default Work Unit"
     else if childType = "Effect" || childType = "AcousticTexture" then
       "\\Effects\\Default Work Unit"
     else if ["Sound", "RandomSequenceContainer", "SwitchContainer",
              "BlendContainer", "ActorMixer", "Folder",
              "WorkUnit"].contains childType then amDefaultPath
     else amDefaultPath)
  else if strIn "master audio bus" pLow || pLow = "master" then masterBusPath
  else if strIn "actor-mixer" pLow && !(strIn "hierarchy" pLow) then amDefaultPath
  else if pLow = "actor-mixer hierarchy" then amDefaultPath
  else if pLow = "events" ||
          (strIn "event" pLow && !(strIn "hierarchy" pLow) &&
           !(strIn "work unit" pLow)) then "\\Events\\Default Work Unit"
  else if pLow = "switches" then "\\Switches\\Default Work Unit"
  else if pLow = "states" then "\\States\\Default Work Unit"
  else if pLow = "master-mixer hierarchy" then masterBusPath
  else if strIn "attenuation" pLow then "\\Attenuations\\Default Work Unit"
  else if strIn "game parameter" pLow || pLow = "game parameters" then
    "\\Game Parameters\\Default Work Unit"
  else if strIn "ai_playplace" pLow then
    p.replace "AI_Playplace" "AI_Playground"
  else if (childType = "Bus" || childType = "AuxBus") &&
          strIn "default work unit" pLow then masterBusPath
  else p

/-- `_get_valid_parent_types`. -/
def validParentTypes (t : String) : Option String :=
  if ["ActorMixer", "Sound", "RandomSequenceContainer", "SwitchContainer",
      "BlendContainer", "Folder", "WorkUnit"].contains t then
    some "WorkUnit,Folder,ActorMixer,RandomSequenceContainer,SwitchContainer,BlendContainer"
  else if t = "Event" then some "WorkUnit,Folder"
  else if t = "Bus" || t = "AuxBus" then some "WorkUnit,Folder,Bus,AuxBus"
  else if t = "GameParameter" then some "WorkUnit,Folder"
  else if t = "SwitchGroup" || t = "Switch" then some "WorkUnit,Folder,SwitchGroup"
  else if t = "StateGroup" || t = "State" then some "WorkUnit,Folder,StateGroup"
  else none

/-- The container kinds of the V7.2 tie-break in `_resolve_via_registry`. -/
def containerKinds : List String :=
  ["ActorMixer", "RandomSequenceContainer", "SwitchContainer",
   "BlendContainer", "Folder", "WorkUnit", "Bus", "AuxBus"]

/-- The hierarchy keyword a child kind requires of its parent path. -/
def hierarchyKeyword (t : String) : String :=
  if ["ActorMixer", "Sound", "RandomSequenceContainer", "SwitchContainer",
      "BlendContainer"].contains t then "Actor-Mixer Hierarchy"
  else if t = "Event" then "Events"
  else if t = "Bus" || t = "AuxBus" then "Master-Mixer Hierarchy"
  else if t = "GameParameter" then "Game Parameters"
  else if t = "SwitchGroup" || t = "Switch" then "Switches"
  else if t = "StateGroup" || t = "State" then "States"
  else ""

/-- Is the object registered at this path of a container kind (a truthy
GUID in `path_map` whose `type_map` entry is a container kind)? -/
def isContainerPath (r : Registry) (path : String) : Bool :=
  match lookupTab r.path_map path with
  | some guid =>
      guid ≠ "" && containerKinds.contains ((lookupTab r.type_map guid).getD "")
  | none => false

/-- `_resolve_via_registry`: filter the name candidates by the hierarchy
keyword (and drop attenuation paths), take a unique survivor, otherwise
scan the survivors from the most recently registered backward for a
container kind, falling back to the first registered. -/
def resolveViaRegistry (reg : Option Registry) (name objType : String) :
    Option String :=
  match reg with
  | none => none
  | some r =>
      let candidates := lookupPaths r name
      if candidates.isEmpty then none
      else
        let kw := hierarchyKeyword objType
        let filtered := candidates.filter fun p =>
          !(strIn "Attenuations" p) && (kw = "" || strIn kw p)
        if filtered.length = 1 then filtered.head?
        else if filtered.length > 1 then
          match filtered.reverse.find? (fun p => isContainerPath r p) with
          | some p => some p
          | none => filtered.head?
        else none

/-- `_find_reference_path`: candidate paths for the name, preferring the
first one containing the hierarchy hint, else the first registered. -/
def findReferencePath (r : Registry) (name : String) (hint : Option String) :
    Option String :=
  let candidates := lookupPaths r name
  if candidates.isEmpty then none
  else
    match hint with
    | some h =>
        match candidates.find? (fun p => strIn h p) with
        | some p => some p
        | none => candidates.head?
    | none => candidates.head?

/-! ## Instruction handlers -/

def assetTypes : List String :=
  ["ActorMixer", "Sound", "RandomSequenceContainer", "SwitchContainer",
   "BlendContainer"]

/-- The WAQL fallback query `$ from type T where name="N"`. -/
def queryFor (validTypes parent : String) : String :=
  "$ from type " ++ validTypes ++ " where name=\"" ++ parent ++ "\""

/-- `_handle_create`: type normalization, parent resolution, registry
disambiguation with typed-query fallback, physical-folder defense, smart
downgrade, and conflict-strategy selection. -/
def handleCreate (reg : Option Registry) (rawType name rawParent : String) :
    List Step :=
  let objType := lookupFix typeFix rawType
  let parent0 := resolveParentStrategy rawParent objType
  let parent1 :=
    if !(pyStarts parent0 "\\" || pyStarts parent0 "$" || pyStarts parent0 "\x7b") then
      match resolveViaRegistry reg parent0 objType with
      | some rp => rp
      | none =>
          match validParentTypes objType with
          | some vt => queryFor vt parent0
          | none => parent0
    else parent0
  let folderDefense : List Step × String :=
    match reg with
    | some r =>
        if assetTypes.contains objType then
          let parentGuid : Option String :=
            if pyStarts parent1 "\x7b" then some parent1 else r.guid_of parent1 true
          match parentGuid with
          | some g =>
              if g ≠ "" && r.is_physical g then
                let wuName := rawParent ++ "_Content"
                let wuStep : Step :=
                  ⟨"ak.wwise.core.object.create",
                   [("type", .ps "WorkUnit"), ("name", .ps wuName),
                    ("parent", .ps g), ("onNameConflict", .ps "merge")], []⟩
                let newParent :=
                  match r.path_by_guid g with
                  | some pp =>
                      if pp ≠ "" then pp ++ "\\" ++ wuName
                      else "$ from type WorkUnit where name=\"" ++ wuName ++ "\""
                  | none => "$ from type WorkUnit where name=\"" ++ wuName ++ "\""
                ([wuStep], newParent)
              else ([], parent1)
          | none => ([], parent1)
        else ([], parent1)
    | none => ([], parent1)
  let parent2 := folderDefense.2
  let objType2 :=
    if objType = "WorkUnit" &&
       (pyStarts parent2 "\x7b" ||
        strIn "\\actor-mixer hierarchy\\" (pyLower parent2)) then "ActorMixer"
    else objType
  let conflict := if objType2 = "WorkUnit" then "rename" else "merge"
  folderDefense.1 ++
    [⟨"ak.wwise.core.object.create",
      [("type", .ps objType2), ("name", .ps name), ("parent", .ps parent2),
       ("onNameConflict", .ps conflict)], []⟩]

/-- The slot-specific hierarchy hint of `_handle_link`. -/
def linkHierarchyHint (wRef : String) : Option String :=
  if wRef = "OutputBus" then some "Master-Mixer Hierarchy"
  else if wRef = "Attenuation" then some "Attenuations"
  else if wRef = "UserAuxSend0" || wRef = "UserAuxSend1" then
    some "Master-Mixer Hierarchy"
  else if wRef = "SwitchGroupOrStateGroup" then some "Switches"
  else if wRef = "StateGroup" then some "States"
  else if wRef = "GameParameter" then some "Game Parameters"
  else none

/-- The LINK target resolution of `_handle_link`: GUIDs, absolute paths and
queries pass verbatim; bare names consult the Registry with the slot hint
and otherwise pass through for the execution layer. -/
def resolveLinkTarget (reg : Option Registry) (target wRef : String) : String :=
  if pyStarts target "\\" || pyStarts target "\x7b" || pyStarts target "$" then
    target
  else
    match reg with
    | none => target
    | some r =>
        match findReferencePath r target (linkHierarchyHint wRef) with
        | some p => p
        | none => target

/-- `_handle_link`: slot normalization, target resolution, the automatic
override step for the output-routing and positioning slots, then the
reference-set step. -/
def handleLink (reg : Option Registry) (child target linkType : String) :
    List Step :=
  let wRef := lookupFix refMap linkType
  let resolved := resolveLinkTarget reg target wRef
  (if wRef = "OutputBus" then
     [⟨"ak.wwise.core.object.setProperty",
       [("object", .ps child), ("property", .ps "OverrideOutput"),
        ("value", .pb true)], []⟩]
   else []) ++
  (if wRef = "Attenuation" then
     [⟨"ak.wwise.core.object.setProperty",
       [("object", .ps child), ("property", .ps "OverridePositioning"),
        ("value", .pb true)], []⟩]
   else []) ++
  [⟨"ak.wwise.core.object.setReference",
    [("object", .ps child), ("reference", .ps wRef),
     ("value", .ps resolved)], []⟩]

/-- `_handle_add_action`. -/
def handleAddAction (eventName actionTypeLower target : String)
    (extra : Option String) : List Step :=
  let atId : Int := (lookupTab actionTypes actionTypeLower).getD 1
  let baseArgs : List (String × PVal) :=
    [("parent", .ps eventName), ("type", .ps "Action"), ("name", .ps ""),
     ("onNameConflict", .ps "merge"), ("@ActionType", .pi atId),
     ("@Target", .ps target)]
  let args :=
    match extra with
    | some ex =>
        if actionTypeLower = "setswitch" then
          baseArgs ++ [("@SwitchValue", .ps ex)]
        else if actionTypeLower = "setstate" then
          baseArgs ++ [("@StateValue", .ps ex)]
        else baseArgs
    | none => baseArgs
  [⟨"ak.wwise.core.object.create", args, []⟩]

/-- `_handle_create_event`: an Event creation followed by a Play action. -/
def handleCreateEvent (eventName parent target : String) : List Step :=
  let eventParent := resolveParentStrategy parent "Event"
  [⟨"ak.wwise.core.object.create",
    [("type", .ps "Event"), ("name", .ps eventName),
     ("parent", .ps eventParent), ("onNameConflict", .ps "merge")], []⟩,
   ⟨"ak.wwise.core.object.create",
    [("parent", .ps eventName), ("type", .ps "Action"), ("name", .ps ""),
     ("onNameConflict", .ps "merge"), ("@ActionType", .pi 1),
     ("@Target", .ps target)], []⟩]

/-- POSIX `os.path.basename`. -/
def basenameOf (fp : String) : String :=
  ⟨(fp.toList.reverse.takeWhile (fun c => c ≠ '/')).reverse⟩

/-- The stem of `os.path.splitext`: cut at the last dot that is not part of
the leading-dot run. -/
def splitextStem (bn : String) : String :=
  let l := bn.toList
  let lead := l.takeWhile (fun c => c = '.')
  let tail := l.drop lead.length
  match tail.reverse.dropWhile (fun c => c ≠ '.') with
  | '.' :: restRev => ⟨lead ++ restRev.reverse⟩
  | _ => bn

/-- `_handle_import_audio` (nested args flattened into dotted keys). -/
def handleImportAudio (filePath parent : String) (soundName : Option String) :
    List Step :=
  let sname :=
    match soundName with
    | some s => if s = "" then splitextStem (basenameOf filePath) else s
    | none => splitextStem (basenameOf filePath)
  let parentResolved := resolveParentStrategy parent "Sound"
  [⟨"ak.wwise.core.audio.import",
    [("importOperation", .ps "useExisting"),
     ("default.importLanguage", .ps "SFX"),
     ("imports.0.audioFile", .ps filePath),
     ("imports.0.objectPath", .ps ("<Sound>" ++ sname)),
     ("imports.0.parent", .ps parentResolved)], []⟩]

/-! ## RTPC curve points (`re.findall` plus `float`) -/

/-- One attempt of `\(([^,]+),\s*([^)]+)\)` immediately after an opening
parenthesis, with the single-step backtracking of `\s*` into `[^)]+` when
the closing parenthesis directly follows the whitespace run. Returns the
two groups and the number of characters consumed after the parenthesis. -/
def tryPoint (cs : List Char) : Option (String × String × Nat) :=
  let g1 := cs.takeWhile (fun c => c ≠ ',')
  match cs.dropWhile (fun c => c ≠ ',') with
  | ',' :: r2 =>
      if g1.isEmpty then none
      else
        let w := r2.takeWhile isPySpace
        match r2.drop w.length with
        | ')' :: _ =>
            match w.reverse with
            | c :: _ => some (⟨g1⟩, ⟨[c]⟩, g1.length + 1 + w.length + 1)
            | [] => none
        | [] => none
        | _ =>
            let g2 := (r2.drop w.length).takeWhile (fun x => x ≠ ')')
            match (r2.drop w.length).dropWhile (fun x => x ≠ ')') with
            | ')' :: _ =>
                some (⟨g1⟩, ⟨g2⟩, g1.length + 1 + w.length + g2.length + 1)
            | _ => none
  | _ => none

/-- Scan loop of `findall`, fueled by the input length (each step consumes
at least one character, so the fuel never runs out on the initial call). -/
def findPointsAux : Nat → List Char → List (String × String)
  | 0, _ => []
  | _ + 1, [] => []
  | fuel + 1, c :: cs =>
      if c = '(' then
        match tryPoint cs with
        | some (x, y, n) => (x, y) :: findPointsAux fuel (cs.drop n)
        | none => findPointsAux fuel cs
      else findPointsAux fuel cs

/-- `re.findall(r'\(([^,]+),\s*([^)]+)\)', points_str)`: non-overlapping
left-to-right scan; a successful match resumes after its last character. -/
def findPoints (l : List Char) : List (String × String) :=
  findPointsAux l.length l

/-- Python `float(x.strip())` as used on a curve point coordinate: the only
statement of `_parse_single_line` whose handler can raise. -/
def toFloatE (x : String) : Except String Rat :=
  match pyFloat? (pyStrip x) with
  | some q => .ok q
  | none =>
      .error ("could not convert string to float: \x27" ++ pyStrip x ++ "\x27")

/-- `_handle_rtpc_curve`: point list extraction and conversion; a
non-numeric coordinate raises, which `parse` records as a line error. -/
def handleRtpc (obj param prop pointsStr : String) :
    Except String (List Step) := do
  let pts ← (findPoints pointsStr.toList).mapM
    (fun xy => do
      let xq ← toFloatE xy.1
      let yq ← toFloatE xy.2
      pure (xq, yq))
  let pointArgs : List (String × PVal) :=
    (pts.enum.map fun q =>
      [("points." ++ toString q.1 ++ ".x", PVal.pf q.2.1),
       ("points." ++ toString q.1 ++ ".y", PVal.pf q.2.2),
       ("points." ++ toString q.1 ++ ".shape", PVal.ps "Linear")]).flatten
  pure [⟨"ak.wwise.core.object.setAttenuationCurve",
    [("object", .ps obj), ("curveType", .ps prop), ("use", .ps param)] ++
      pointArgs, []⟩]

/-! ## Single-line dispatch and the top-level parse loop -/

/-- The fixed prefixes the fallback silently ignores (markdown fences and
similar), from `_parse_single_line`. -/
def fencePrefixes : List String := ["<", ">", "```", "---", "==="]

def take50 (s : String) : String := ⟨s.toList.take 50⟩

/-- Outcome of `_parse_single_line` on one cleaned line: either plan steps
plus any warning recorded, or a raised exception message. -/
inductive LineResult where
  | ok (steps : List Step) (warns : List String)
  | err (msg : String)
deriving DecidableEq, Repr

/-- `_parse_single_line`: fixed-priority ordered match over the twelve
instruction grammars, with the warning fallback for unmatched lines. -/
def parseSingleLine (reg : Option Registry) (line : String) : LineResult :=
  let l := line.toList
  match matchCreate l with
  | some (t, n, p) => .ok (handleCreate reg t n p) []
  | none =>
  match matchSetProp l with
  | some (o, pr, v) =>
      .ok [⟨"ak.wwise.core.object.setProperty",
            [("object", .ps o), ("property", .ps pr),
             ("value", parseVal v)], []⟩] []
  | none =>
  match matchLink l with
  | some (c, t, ty) => .ok (handleLink reg c t ty) []
  | none =>
  match matchAssign l with
  | some (c, s) =>
      .ok [⟨"ak.wwise.core.switchContainer.addAssignment",
            [("child", .ps c), ("stateOrSwitch", .ps s)], []⟩] []
  | none =>
  match matchAddAction l with
  | some (ev, at0, tgt, ex) => .ok (handleAddAction ev (pyLower at0) tgt ex) []
  | none =>
  match matchCreateEvent l with
  | some (ev, par, tgt) =>
      .ok (handleCreateEvent ev (par.getD "Default Work Unit") tgt) []
  | none =>
  match matchImportAudio l with
  | some (fp, par, sn) => .ok (handleImportAudio fp par sn) []
  | none =>
  match matchRtpc l with
  | some (o, pa, pr, pts) =>
      match handleRtpc o pa pr pts with
      | .ok steps => .ok steps []
      | .error m => .err m
  | none =>
  match matchDelete l with
  | some o =>
      .ok [⟨"ak.wwise.core.object.delete", [("object", .ps o)], []⟩] []
  | none =>
  match matchCopy l with
  | some (src, par, _nn) =>
      .ok [⟨"ak.wwise.core.object.copy",
            [("object", .ps src), ("parent", .ps par),
             ("onNameConflict", .ps "rename")], ["name", "id"]⟩] []
  | none =>
  match matchMove l with
  | some (o, par) =>
      .ok [⟨"ak.wwise.core.object.move",
            [("object", .ps o), ("parent", .ps par),
             ("onNameConflict", .ps "rename")], []⟩] []
  | none =>
  match matchRename l with
  | some (old, nn) =>
      .ok [⟨"ak.wwise.core.object.setName",
            [("object", .ps old), ("value", .ps nn)], []⟩] []
  | none =>
      if line ≠ "" && !(fencePrefixes.any (fun f => pyStarts line f)) then
        .ok [] ["Unrecognized instruction: " ++ take50 line ++ "..."]
      else .ok [] []

/-- `re.sub(r'^\d+\.\s*', '', line)`: strip a leading enumeration prefix. -/
def stripNumPrefix (s : String) : String :=
  let l := s.toList
  let ds := l.takeWhile Char.isDigit
  if ds.isEmpty then s
  else
    match l.drop ds.length with
    | '.' :: r => ⟨r.dropWhile isPySpace⟩
    | _ => s

/-- The result of `parse`: the accumulated plan, `self.parse_errors` and
`self.parse_warnings`. -/
structure ParseState where
  plan : List Step
  errors : List String
  warnings : List String
deriving DecidableEq, Repr

/-- What one enumerated input line contributes to the accumulated state:
nothing for blank and comment lines; the handler steps plus any fallback
warning on success; a `Line N:` error when the handler raises. -/
def lineDelta (reg : Option Registry) (idx : Nat) (raw : String) : ParseState :=
  let line := pyStrip raw
  if line = "" || pyStarts line "#" || pyStarts line "//" then ⟨[], [], []⟩
  else
    match parseSingleLine reg (stripNumPrefix line) with
    | .ok steps ws => ⟨steps, [], ws⟩
    | .err m => ⟨[], ["Line " ++ toString (idx + 1) ++ ": " ++ m], []⟩

/-- Field-wise accumulation (`plan.extend`, `parse_errors.append`, ...). -/
def stApp (a b : ParseState) : ParseState :=
  ⟨a.plan ++ b.plan, a.errors ++ b.errors, a.warnings ++ b.warnings⟩

/-- The loop body of `parse`, with the running line index (`enumerate`). -/
def parseGo (reg : Option Registry) : Nat → List String → ParseState → ParseState
  | _, [], st => st
  | idx, raw :: rest, st =>
      parseGo reg (idx + 1) rest (stApp st (lineDelta reg idx raw))

/-- `DSLParser.parse`: the public entry point, starting from fresh
diagnostics. -/
def parseLines (reg : Option Registry) (lines : List String) : ParseState :=
  parseGo reg 0 lines ⟨[], [], []⟩

/-! ## Claim C8: per-line error accumulation and warning fallback -/

/-- Do all twelve instruction grammars fail on this cleaned line? -/
def noGrammarMatches (c : String) : Bool :=
  (matchCreate c.toList).isNone && (matchSetProp c.toList).isNone &&
  (matchLink c.toList).isNone && (matchAssign c.toList).isNone &&
  (matchAddAction c.toList).isNone && (matchCreateEvent c.toList).isNone &&
  (matchImportAudio c.toList).isNone && (matchRtpc c.toList).isNone &&
  (matchDelete c.toList).isNone && (matchCopy c.toList).isNone &&
  (matchMove c.toList).isNone && (matchRename c.toList).isNone

/-- Does the parse loop hand this raw line to the dispatcher (neither
blank nor a comment)? -/
def notSkipped (raw : String) : Bool :=
  let line := pyStrip raw
  !(line = "" || pyStarts line "#" || pyStarts line "//")

/-- The cleaned form of a dispatched line (strip plus enumeration prefix
removal). -/
def cleanedOf (raw : String) : String := stripNumPrefix (pyStrip raw)

/-- A raw line that reaches the dispatcher, matches no instruction grammar
and is not fence-like nor empty after cleaning: the fallback warns. -/
def unrecLine (raw : String) : Bool :=
  notSkipped raw && noGrammarMatches (cleanedOf raw) &&
  !(cleanedOf raw = "") &&
  !(fencePrefixes.any (fun f => pyStarts (cleanedOf raw) f))

/-- A raw line that reaches the dispatcher and matches no grammar, but is
empty after cleaning or fence-like: ignored without any diagnostic. -/
def silentLine (raw : String) : Bool :=
  notSkipped raw && noGrammarMatches (cleanedOf raw) &&
  (cleanedOf raw = "" || fencePrefixes.any (fun f => pyStarts (cleanedOf raw) f))

/-- The warning text the fallback records. -/
def unrecWarning (raw : String) : String :=
  "Unrecognized instruction: " ++ take50 (cleanedOf raw) ++ "..."

theorem parseSingleLine_noMatch (reg : Option Registry) (c : String)
    (h : noGrammarMatches c = true) :
    parseSingleLine reg c =
      (if c ≠ "" && !(fencePrefixes.any (fun f => pyStarts c f)) then
        LineResult.ok [] ["Unrecognized instruction: " ++ take50 c ++ "..."]
      else LineResult.ok [] []) := by
  simp only [noGrammarMatches, Bool.and_eq_true, Option.isNone_iff_eq_none,
    String.toList] at h
  obtain ⟨⟨⟨⟨⟨⟨⟨⟨⟨⟨⟨h1, h2⟩, h3⟩, h4⟩, h5⟩, h6⟩, h7⟩, h8⟩, h9⟩, h10⟩, h11⟩, h12⟩ := h
  simp [parseSingleLine, String.toList, h1, h2, h3, h4, h5, h6, h7, h8, h9,
    h10, h11, h12]

/-- One unfolding step of the parse loop. -/
theorem parseGo_cons (reg : Option Registry) (idx : Nat) (raw : String)
    (rest : List String) (st : ParseState) :
    parseGo reg idx (raw :: rest) st =
      parseGo reg (idx + 1) rest (stApp st (lineDelta reg idx raw)) := rfl

theorem stApp_assoc (a b c : ParseState) :
    stApp (stApp a b) c = stApp a (stApp b c) := by
  simp [stApp]

theorem stApp_empty (a : ParseState) : stApp a ⟨[], [], []⟩ = a := by
  simp [stApp]

theorem empty_stApp (a : ParseState) : stApp ⟨[], [], []⟩ a = a := by
  simp [stApp]

/-- Frame property: the parse loop only appends to the state it starts
from. -/
theorem parseGo_frame (reg : Option Registry) (rest : List String) :
    ∀ (idx : Nat) (st : ParseState),
      parseGo reg idx rest st = stApp st (parseGo reg idx rest ⟨[], [], []⟩) := by
  induction rest with
  | nil => intro idx st; simp [parseGo, stApp_empty]
  | cons raw tl ih =>
      intro idx st
      rw [parseGo_cons, parseGo_cons, ih (idx + 1),
          ih (idx + 1) (stApp ⟨[], [], []⟩ (lineDelta reg idx raw)),
          empty_stApp, stApp_assoc]

/-- The only errors one line can contribute carry its own line number. -/
theorem lineDelta_errors_form (reg : Option Registry) (idx : Nat)
    (raw : String) :
    ∀ e ∈ (lineDelta reg idx raw).errors,
      ∃ msg, e = "Line " ++ toString (idx + 1) ++ ": " ++ msg := by
  intro e he
  unfold lineDelta at he
  dsimp only at he
  split at he
  · simp at he
  · split at he
    · simp at he
    · simp at he
      exact ⟨_, he⟩

/-- Every error the loop appends carries a line number in its range. -/
theorem parseGo_errors_form (reg : Option Registry) (rest : List String) :
    ∀ (idx : Nat) (st : ParseState),
      ∀ e ∈ (parseGo reg idx rest st).errors,
        e ∈ st.errors ∨
        ∃ n msg, idx + 1 ≤ n ∧ n ≤ idx + rest.length ∧
          e = "Line " ++ toString n ++ ": " ++ msg := by
  induction rest with
  | nil => intro idx st e he; exact Or.inl he
  | cons raw tl ih =>
      intro idx st e he
      rw [parseGo_cons] at he
      rcases ih (idx + 1) _ e he with h | ⟨n, msg, h1, h2, h3⟩
      · rcases List.mem_append.mp h with h' | h'
        · exact Or.inl h'
        · rcases lineDelta_errors_form reg idx raw e h' with ⟨msg, hm⟩
          exact Or.inr ⟨idx + 1, msg, le_refl _, by simp, hm⟩
      · exact Or.inr ⟨n, msg, by omega, by simp at h2 ⊢; omega, h3⟩

/-- A warned line contributes exactly its warning, and nothing else. -/
theorem lineDelta_unrec (reg : Option Registry) (idx : Nat) (u : String)
    (hunrec : unrecLine u = true) :
    lineDelta reg idx u = ⟨[], [], [unrecWarning u]⟩ := by
  unfold unrecLine at hunrec
  simp only [Bool.and_eq_true] at hunrec
  obtain ⟨⟨⟨hns, hng⟩, hne⟩, hfence⟩ := hunrec
  have hskip : (pyStrip u = "" || pyStarts (pyStrip u) "#" ||
      pyStarts (pyStrip u) "//") = false := by
    unfold notSkipped at hns
    simp only [Bool.not_eq_true'] at hns
    exact hns
  unfold cleanedOf at hng hne hfence
  unfold lineDelta
  dsimp only
  simp only [hskip, Bool.false_eq_true, if_false,
    parseSingleLine_noMatch reg _ hng]
  simp only [Bool.not_eq_true'] at hne hfence
  simp [unrecWarning, cleanedOf, hne, hfence]

/-- A fence-like or cleaned-to-empty line contributes nothing at all. -/
theorem lineDelta_silent (reg : Option Registry) (idx : Nat) (u : String)
    (hsil : silentLine u = true) :
    lineDelta reg idx u = ⟨[], [], []⟩ := by
  unfold silentLine at hsil
  simp only [Bool.and_eq_true] at hsil
  obtain ⟨⟨hns, hng⟩, hcond⟩ := hsil
  have hskip : (pyStrip u = "" || pyStarts (pyStrip u) "#" ||
      pyStarts (pyStrip u) "//") = false := by
    unfold notSkipped at hns
    simp only [Bool.not_eq_true'] at hns
    exact hns
  unfold cleanedOf at hng hcond
  unfold lineDelta
  dsimp only
  simp only [hskip, Bool.false_eq_true, if_false,
    parseSingleLine_noMatch reg _ hng]
  simp only [Bool.or_eq_true, decide_eq_true_eq] at hcond
  rcases hcond with hc | hc
  · simp [hc]
  · simp [hc]

theorem lineDelta_blank (reg : Option Registry) (idx : Nat) :
    lineDelta reg idx "" = ⟨[], [], []⟩ := rfl

/-- Replacing one warned line by a blank line leaves the plan and the
errors unchanged, and the warned line leaves its warning in the output;
replacing a silently skipped line changes nothing. -/
theorem parseGo_line_effect (reg : Option Registry) (rest : List String) :
    ∀ (idx : Nat) (st : ParseState) (i : Nat) (u : String),
      rest.get? i = some u →
      (unrecLine u = true →
        (parseGo reg idx rest st).plan =
          (parseGo reg idx (rest.set i "") st).plan ∧
        (parseGo reg idx rest st).errors =
          (parseGo reg idx (rest.set i "") st).errors ∧
        unrecWarning u ∈ (parseGo reg idx rest st).warnings) ∧
      (silentLine u = true →
        parseGo reg idx rest st = parseGo reg idx (rest.set i "") st) := by
  induction rest with
  | nil => intro idx st i u hu; simp at hu
  | cons raw tl ih =>
      intro idx st i u hu
      cases i with
      | zero =>
          have hru : raw = u := by simpa using hu
          subst hru
          rw [List.set]
          constructor
          · intro hunrec
            rw [parseGo_cons, parseGo_cons, lineDelta_unrec reg idx raw hunrec,
                lineDelta_blank, stApp_empty,
                parseGo_frame reg tl (idx + 1)
                  (stApp st ⟨[], [], [unrecWarning raw]⟩),
                parseGo_frame reg tl (idx + 1) st]
            refine ⟨by simp [stApp], by simp [stApp], by simp [stApp]⟩
          · intro hsil
            rw [parseGo_cons, parseGo_cons, lineDelta_silent reg idx raw hsil,
                lineDelta_blank]
      | succ j =>
          simp only [List.get?] at hu
          rw [List.set, parseGo_cons, parseGo_cons]
          exact ih (idx + 1) (stApp st (lineDelta reg idx raw)) j u hu

/-- C8 counterexample: a markdown-fence line matches no instruction grammar
yet is skipped silently, with no warning recorded (the claim says every
grammarless line is recorded as a warning). -/
theorem parse_warning_counterexample :
    noGrammarMatches "```" = true ∧
    parseLines none ["```"] = ⟨[], [], []⟩ := by decide

/-- C8 as amended: `parse` is total; every recorded error has the form
`Line N: <message>` with N an input line number; a line matching no
instruction grammar contributes no plan steps and no errors and is recorded
as a warning — except lines that are empty after prefix cleaning or start
with one of `<`, `>`, three backticks, `---`, `===`, which are skipped with
no diagnostic at all. -/
theorem parse_error_handling (reg : Option Registry) (lines : List String) :
    (∀ e ∈ (parseLines reg lines).errors,
      ∃ n msg, 1 ≤ n ∧ n ≤ lines.length ∧
        e = "Line " ++ toString n ++ ": " ++ msg) ∧
    (∀ i u, lines.get? i = some u → unrecLine u = true →
      (parseLines reg lines).plan = (parseLines reg (lines.set i "")).plan ∧
      (parseLines reg lines).errors = (parseLines reg (lines.set i "")).errors ∧
      unrecWarning u ∈ (parseLines reg lines).warnings) ∧
    (∀ i u, lines.get? i = some u → silentLine u = true →
      parseLines reg lines = parseLines reg (lines.set i "")) := by
  refine ⟨?_, ?_, ?_⟩
  · intro e he
    rcases parseGo_errors_form reg lines 0 ⟨[], [], []⟩ e he with h | ⟨n, m, h1, h2, h3⟩
    · simp at h
    · exact ⟨n, m, h1, by omega, h3⟩
  · intro i u hu hunrec
    exact ((parseGo_line_effect reg lines 0 ⟨[], [], []⟩ i u hu).1) hunrec
  · intro i u hu hsil
    exact ((parseGo_line_effect reg lines 0 ⟨[], [], []⟩ i u hu).2) hsil

/-- C8 witness: a three-line input whose first line raises inside its
handler (recorded as a `Line 1:` error, processing continuing), whose
second line matches no grammar (warned, no step), and whose third line
still contributes its step. -/
theorem parse_error_handling_witness :
    (∃ n msg,
      1 ≤ n ∧
      n ≤ (["SET_RTPC_CURVE \"O\" \"P\" \"Q\" POINTS [(a,2)]",
            "FROBNICATE", "DELETE \"X\""] : List String).length ∧
      "Line 1: could not convert string to float: \x27a\x27" =
        "Line " ++ toString n ++ ": " ++ msg) ∧
    (parseLines none
      ["SET_RTPC_CURVE \"O\" \"P\" \"Q\" POINTS [(a,2)]",
       "FROBNICATE", "DELETE \"X\""]).plan =
      (parseLines none
        ["SET_RTPC_CURVE \"O\" \"P\" \"Q\" POINTS [(a,2)]",
         "", "DELETE \"X\""]).plan ∧
    unrecWarning "FROBNICATE" ∈
      (parseLines none
        ["SET_RTPC_CURVE \"O\" \"P\" \"Q\" POINTS [(a,2)]",
         "FROBNICATE", "DELETE \"X\""]).warnings :=
  ⟨(parse_error_handling none
      ["SET_RTPC_CURVE \"O\" \"P\" \"Q\" POINTS [(a,2)]",
       "FROBNICATE", "DELETE \"X\""]).1
      "Line 1: could not convert string to float: \x27a\x27" (by decide),
   ((parse_error_handling none
      ["SET_RTPC_CURVE \"O\" \"P\" \"Q\" POINTS [(a,2)]",
       "FROBNICATE", "DELETE \"X\""]).2.1 1 "FROBNICATE" (by decide)
      (by decide)).1,
   ((parse_error_handling none
      ["SET_RTPC_CURVE \"O\" \"P\" \"Q\" POINTS [(a,2)]",
       "FROBNICATE", "DELETE \"X\""]).2.1 1 "FROBNICATE" (by decide)
      (by decide)).2.2⟩

/-! ## Claim C3: the forward-compile scenario -/

/-- A Registry for the scenario, indexing the master routing bus under the
bare name Master (no other state is consulted on this input). -/
def c3Registry : Registry :=
  ⟨[("Master", [masterBusPath])], [], [],
   fun _ _ => none, fun _ => false, fun _ => none⟩

/-- C3: compiling the two scenario lines yields exactly three steps in
order: the Sound creation under the default asset-hierarchy work unit, the
OverrideOutput property step, and the OutputBus reference step whose value
is the master routing bus path. -/
theorem forward_compile_scenario :
    parseLines (some c3Registry)
      ["CREATE Sound \"Hit_01\" UNDER \"Default Work Unit\"",
       "LINK \"Hit_01\" TO \"Master\" AS \"Bus\""] =
    ⟨[⟨"ak.wwise.core.object.create",
       [("type", .ps "Sound"), ("name", .ps "Hit_01"),
        ("parent", .ps "\\Actor-Mixer Hierarchy\\Default Work Unit"),
        ("onNameConflict", .ps "merge")], []⟩,
      ⟨"ak.wwise.core.object.setProperty",
       [("object", .ps "Hit_01"), ("property", .ps "OverrideOutput"),
        ("value", .pb true)], []⟩,
      ⟨"ak.wwise.core.object.setReference",
       [("object", .ps "Hit_01"), ("reference", .ps "OutputBus"),
        ("value", .ps masterBusPath)], []⟩],
     [], []⟩ := by decide

/-! ## Claim C7: LINK override-step emission -/

/-- C7: a LINK line expands to the override step followed by the reference
step exactly for the output-routing and positioning slots, and to the
single reference step for every other slot. -/
theorem link_override_steps (reg : Option Registry) (c t s : String) :
    (normalizeReference s = "OutputBus" →
       handleLink reg c t s =
         [⟨"ak.wwise.core.object.setProperty",
           [("object", .ps c), ("property", .ps "OverrideOutput"),
            ("value", .pb true)], []⟩,
          ⟨"ak.wwise.core.object.setReference",
           [("object", .ps c), ("reference", .ps (normalizeReference s)),
            ("value", .ps (resolveLinkTarget reg t (normalizeReference s)))],
           []⟩]) ∧
    (normalizeReference s = "Attenuation" →
       handleLink reg c t s =
         [⟨"ak.wwise.core.object.setProperty",
           [("object", .ps c), ("property", .ps "OverridePositioning"),
            ("value", .pb true)], []⟩,
          ⟨"ak.wwise.core.object.setReference",
           [("object", .ps c), ("reference", .ps (normalizeReference s)),
            ("value", .ps (resolveLinkTarget reg t (normalizeReference s)))],
           []⟩]) ∧
    (normalizeReference s ≠ "OutputBus" → normalizeReference s ≠ "Attenuation" →
       handleLink reg c t s =
         [⟨"ak.wwise.core.object.setReference",
           [("object", .ps c), ("reference", .ps (normalizeReference s)),
            ("value", .ps (resolveLinkTarget reg t (normalizeReference s)))],
           []⟩]) := by
  have hw : lookupFix refMap s = normalizeReference s := rfl
  refine ⟨fun h => ?_, fun h => ?_, fun h1 h2 => ?_⟩
  · simp [handleLink, hw, h]
  · simp [handleLink, hw, h]
  · simp [handleLink, hw, h1, h2]

/-- C7 witness: the scenario slots Bus (an output-routing alias) and Target
(any other slot), with no registry attached. -/
theorem link_override_steps_witness :
    handleLink none "C" "T" "Bus" =
      [⟨"ak.wwise.core.object.setProperty",
        [("object", .ps "C"), ("property", .ps "OverrideOutput"),
         ("value", .pb true)], []⟩,
       ⟨"ak.wwise.core.object.setReference",
        [("object", .ps "C"), ("reference", .ps "OutputBus"),
         ("value", .ps "T")], []⟩] ∧
    handleLink none "C" "T" "Target" =
      [⟨"ak.wwise.core.object.setReference",
        [("object", .ps "C"), ("reference", .ps "Target"),
         ("value", .ps "T")], []⟩] :=
  ⟨(link_override_steps none "C" "T" "Bus").1 (by decide),
   (link_override_steps none "C" "T" "Target").2.2 (by decide) (by decide)⟩

/-! ## Claims C5 and C6: registry parent resolution -/

/-- The C5 registry, candidates registered leaf first: the name X denotes
both a Sound at `\A\X\Leaf` and a Folder at `\A\X`. -/
def c5RegistryA : Registry :=
  ⟨[("X", ["\\A\\X\\Leaf", "\\A\\X"])],
   [("\\A\\X\\Leaf", "guid-leaf"), ("\\A\\X", "guid-folder")],
   [("guid-leaf", "Sound"), ("guid-folder", "Folder")],
   fun _ _ => none, fun _ => false, fun _ => none⟩

/-- The C5 registry with the opposite candidate registration order. -/
def c5RegistryB : Registry :=
  ⟨[("X", ["\\A\\X", "\\A\\X\\Leaf"])],
   [("\\A\\X\\Leaf", "guid-leaf"), ("\\A\\X", "guid-folder")],
   [("guid-leaf", "Sound"), ("guid-folder", "Folder")],
   fun _ _ => none, fun _ => false, fun _ => none⟩

/-- C5 counterexample: for the container kinds that carry a hierarchy
keyword (here ActorMixer, likewise the other containers and buses), both
candidate paths fail the hierarchy-consistency filter, so resolution
returns no path at all instead of the claimed `\A\X` — the tie-break is
never reached. -/
theorem registry_tiebreak_counterexample :
    resolveViaRegistry (some c5RegistryA) "X" "ActorMixer" = none ∧
    resolveViaRegistry (some c5RegistryB) "X" "ActorMixer" = none ∧
    resolveViaRegistry (some c5RegistryA) "X" "SwitchContainer" = none := by
  decide

/-- C5 as amended: for a child whose kind has no hierarchy keyword (Folder
and WorkUnit, the remaining container kinds), both candidates survive the
filter and the container-preference tie-break returns the Folder path
`\A\X`, in either registration order. -/
theorem registry_tiebreak_amended :
    resolveViaRegistry (some c5RegistryA) "X" "Folder" = some "\\A\\X" ∧
    resolveViaRegistry (some c5RegistryB) "X" "Folder" = some "\\A\\X" ∧
    resolveViaRegistry (some c5RegistryA) "X" "WorkUnit" = some "\\A\\X" ∧
    resolveViaRegistry (some c5RegistryB) "X" "WorkUnit" = some "\\A\\X" := by
  decide

/-- The C6 registry: the name Boss is both an Event-hierarchy path and an
asset-hierarchy path (and its mirror-image registration order). -/
def c6RegistryA : Registry :=
  ⟨[("Boss", ["\\Events\\Boss", "\\Actor-Mixer Hierarchy\\Boss"])], [], [],
   fun _ _ => none, fun _ => false, fun _ => none⟩

def c6RegistryB : Registry :=
  ⟨[("Boss", ["\\Actor-Mixer Hierarchy\\Boss", "\\Events\\Boss"])], [], [],
   fun _ _ => none, fun _ => false, fun _ => none⟩

/-- C6: for an Event-kind child the hierarchy-consistency filter leaves the
single Events candidate, which is selected in either registration order
(the tie-break is not involved; the registry has no kind data here). -/
theorem registry_hierarchy_filter :
    resolveViaRegistry (some c6RegistryA) "Boss" "Event" =
      some "\\Events\\Boss" ∧
    resolveViaRegistry (some c6RegistryB) "Boss" "Event" =
      some "\\Events\\Boss" := by decide

/-! ## The validator (dsl_validator.py)

`DSLValidatorV2` with the real parser attached (registry-less, as
constructed by `DSLParser()`), reduced to the state the claims concern:
the batch-scoped `created_objects` set, modeled as a duplicate-free list
in insertion order. The `ValidationResult` record keeps every field except
the JSONL row number (pure provenance). -/

/-- Python `dsl_code.split(chr(10))`: split at every newline, keeping empty
pieces (so the empty string yields one empty piece). -/
def splitNlAux : List Char → List Char → List String
  | [], acc => [⟨acc.reverse⟩]
  | c :: rest, acc =>
      if c = '\n' then ⟨acc.reverse⟩ :: splitNlAux rest []
      else splitNlAux rest (c :: acc)

def pySplitNl (s : String) : List String := splitNlAux s.toList []

/-- `ValidationResult`. -/
structure VResult where
  is_valid : Bool
  syntax_ok : Bool
  semantic_ok : Bool
  dependency_ok : Bool
  errors : List String
  warnings : List String
  plan_length : Nat
  commands_found : List (String × Nat)
deriving DecidableEq, Repr

/-- `self.system_objects`, in source order. -/
def systemObjects : List String :=
  ["Master Audio Bus", "Master", "Root", "Default Work Unit",
   "Default Conversion Settings", "Master-Mixer Hierarchy",
   "Actor-Mixer Hierarchy", "Events", "Switches", "States",
   "Game Parameters", "Attenuations", "Effects"]

/-- Python `set.add`. -/
def setAdd (s : List String) (x : String) : List String :=
  if s.contains x then s else s ++ [x]

/-- Python `set.update`. -/
def setUnion (s : List String) (xs : List String) : List String :=
  xs.foldl setAdd s

/-- The commands dictionary of `_analyze_plan`, initial value. -/
def initCommands : List (String × Nat) :=
  [("CREATE", 0), ("SET_PROP", 0), ("LINK", 0), ("ASSIGN", 0),
   ("ADD_ACTION", 0), ("OTHER", 0)]

def bump (cm : List (String × Nat)) (k : String) : List (String × Nat) :=
  cm.map fun kv => if kv.1 = k then (kv.1, kv.2 + 1) else kv

/-- The elif chain classifying one plan step in `_analyze_plan`. -/
def stepKey (action : String) : String :=
  if strIn "create" action then "CREATE"
  else if strIn "setProperty" action then "SET_PROP"
  else if strIn "setReference" action then "LINK"
  else if strIn "addAssignment" action then "ASSIGN"
  else "OTHER"

/-- The commands tally of `_analyze_plan` (its loop updates the tally and
the created set independently, so the two effects are two folds). -/
def analyzeCommands (plan : List Step) : List (String × Nat) :=
  plan.foldl (fun cm s => bump cm (stepKey s.action)) initCommands

/-- The created-object effect of `_analyze_plan`: every create step with a
truthy name argument registers the name. -/
def analyzeCreated (plan : List Step) (created : List String) : List String :=
  plan.foldl
    (fun cr s =>
      if strIn "create" s.action then
        match lookupTab s.args "name" with
        | some (PVal.ps n) => if n = "" then cr else setAdd cr n
        | _ => cr
      else cr) created

/-- The truthy name a single step registers (at most one). -/
def stepNames (s : Step) : List String :=
  if strIn "create" s.action then
    match lookupTab s.args "name" with
    | some (PVal.ps n) => if n = "" then [] else [n]
    | _ => []
  else []

/-- The names `_analyze_plan` registers from a plan. -/
def createNamesOf (plan : List Step) : List String :=
  (plan.map stepNames).flatten

/-! ### The light regexes of the semantic and dependency levels -/

/-- `CREATE\s+(\w+)`. -/
def matchSemCreate (l : List Char) : Option String := do
  let r1 ← dropLit "CREATE".toList l
  let r2 ← dropSpaces1 r1
  let w := r2.takeWhile isWordChar
  if w.isEmpty then none else some ⟨w⟩

/-- `SET_PROP\s+"[^"]+"\s+"([^"]+)"`. -/
def matchSemProp (l : List Char) : Option String := do
  let r1 ← dropLit "SET_PROP".toList l
  let r2 ← dropSpaces1 r1
  let (_, r3) ← takeQuoted r2
  let r4 ← dropSpaces1 r3
  let (p, _) ← takeQuoted r4
  some p

/-- `LINK\s+"[^"]+"\s+TO\s+"[^"]+"\s+AS\s+"([^"]+)"`. -/
def matchSemLink (l : List Char) : Option String := do
  let r1 ← dropLit "LINK".toList l
  let r2 ← dropSpaces1 r1
  let (_, r3) ← takeQuoted r2
  let r4 ← dropSpaces1 r3
  let r5 ← dropLit "TO".toList r4
  let r6 ← dropSpaces1 r5
  let (_, r7) ← takeQuoted r6
  let r8 ← dropSpaces1 r7
  let r9 ← dropLit "AS".toList r8
  let r10 ← dropSpaces1 r9
  let (ref, _) ← takeQuoted r10
  some ref

/-- `CREATE\s+\w+\s+"([^"]+)"\s+UNDER\s+"([^"]+)"` (the dependency level
only tracks creations whose type token is a single word). -/
def matchDepCreate (l : List Char) : Option (String × String) := do
  let r1 ← dropLit "CREATE".toList l
  let r2 ← dropSpaces1 r1
  let w := r2.takeWhile isWordChar
  if w.isEmpty then none
  else do
    let r3 ← dropSpaces1 (r2.drop w.length)
    let (nm, r4) ← takeQuoted r3
    let r5 ← dropSpaces1 r4
    let r6 ← dropLit "UNDER".toList r5
    let r7 ← dropSpaces1 r6
    let (par, _) ← takeQuoted r7
    some (nm, par)

/-- `LINK\s+"([^"]+)"\s+TO\s+"([^"]+)"` (no AS clause required). -/
def matchDepLink (l : List Char) : Option (String × String) := do
  let r1 ← dropLit "LINK".toList l
  let r2 ← dropSpaces1 r1
  let (child, r3) ← takeQuoted r2
  let r4 ← dropSpaces1 r3
  let r5 ← dropLit "TO".toList r4
  let r6 ← dropSpaces1 r5
  let (target, _) ← takeQuoted r6
  some (child, target)

/-- The line cleaning shared by the semantic and dependency loops: strip,
skip blank and `#` lines (`//` is not skipped here), strip the enumeration
prefix. -/
def vClean (raw : String) : Option String :=
  let line := pyStrip raw
  if line = "" || pyStarts line "#" then none
  else some (stripNumPrefix line)

/-- The valid CREATE types of `_semantic_validate`. -/
def validCreateTypes : List String :=
  ["ActorMixer", "RandomSequenceContainer", "SwitchContainer",
   "BlendContainer", "Folder", "WorkUnit", "Sound", "Bus", "AuxBus",
   "Event", "SwitchGroup", "Switch", "StateGroup", "State",
   "GameParameter", "Effect", "Attenuation", "Action"]

/-- The valid SET_PROP properties of `_semantic_validate`. -/
def validProps : List String :=
  ["Volume", "Pitch", "Lowpass", "Highpass", "InitialValue", "MinValue",
   "MaxValue", "OverrideOutput", "OverridePositioning", "Priority",
   "IsLoopingEnabled", "Color"]

/-- The valid LINK slots of `_semantic_validate`. -/
def validRefs : List String :=
  ["Bus", "OutputBus", "Attenuation", "SwitchGroupOrStateGroup",
   "SwitchGroup", "StateGroup", "Effect0", "Effect1", "Effect2", "Effect3",
   "UserAuxSend0", "UserAuxSend1", "GameParameter", "Conversion"]

/-- One line of `_semantic_validate`, threading
(semantic_ok, errors, warnings); the three checks run independently. -/
def semStep (acc : Bool × List String × List String) (raw : String) :
    Bool × List String × List String :=
  match vClean raw with
  | none => acc
  | some line =>
      let warns1 :=
        match matchSemCreate line.toList with
        | some t =>
            if !(validCreateTypes.contains t ||
                 validCreateTypes.contains (t.replace "-" "")) then
              acc.2.2 ++ ["非标准类型 \x27" ++ t ++ "\x27，Parser 会尝试纠正"]
            else acc.2.2
        | none => acc.2.2
      let warns2 :=
        match matchSemProp line.toList with
        | some p =>
            if !(validProps.contains p) then
              warns1 ++ ["非常规属性 \x27" ++ p ++ "\x27，可能需要确认"]
            else warns1
        | none => warns1
      match matchSemLink line.toList with
      | some r =>
          if !(validRefs.contains r) then
            (false, acc.2.1 ++ ["无效的引用类型 \x27" ++ r ++ "\x27"], warns2)
          else (acc.1, acc.2.1, warns2)
      | none => (acc.1, acc.2.1, warns2)

/-- `_semantic_validate` over all lines. -/
def semanticValidate (lines : List String) (ok0 : Bool)
    (errs0 warns0 : List String) : Bool × List String × List String :=
  lines.foldl semStep (ok0, errs0, warns0)

/-- One line of `_dependency_validate`, threading (local_created,
warnings); the CREATE block registers the name before checking its parent. -/
def depStep (sys created : List String) (acc : List String × List String)
    (raw : String) : List String × List String :=
  match vClean raw with
  | none => acc
  | some line =>
      let p1 : List String × List String :=
        match matchDepCreate line.toList with
        | some (nm, par) =>
            let localA := setAdd acc.1 nm
            if !(sys.contains par || created.contains par ||
                 localA.contains par) then
              (localA,
               acc.2 ++ ["父级 \x27" ++ par ++ "\x27 未在上下文中找到 (对象: " ++
                 nm ++ ")"])
            else (localA, acc.2)
        | none => acc
      let warns2 :=
        match matchDepLink line.toList with
        | some (child, target) =>
            if !(sys.contains target || created.contains target ||
                 p1.1.contains target) then
              p1.2 ++ ["引用目标 \x27" ++ target ++ "\x27 可能不存在 (对象: " ++
                child ++ ")"]
            else p1.2
        | none => p1.2
      let warns3 :=
        match matchAssign line.toList with
        | some (child, state) =>
            if !(created.contains state || p1.1.contains state) then
              warns2 ++ ["Switch/State \x27" ++ state ++ "\x27 可能不存在 (对象: " ++
                child ++ ")"]
            else warns2
        | none => warns2
      (p1.1, warns3)

/-- `_dependency_validate`: returns the extended warnings and the updated
batch created-object set (`self.created_objects.update(local_created)`). -/
def dependencyValidate (created : List String) (lines : List String)
    (warns0 : List String) : List String × List String :=
  ((lines.foldl (depStep systemObjects created) ([], warns0)).2,
   setUnion created (lines.foldl (depStep systemObjects created) ([], warns0)).1)

/-- The local-created set the dependency level accumulates, in isolation. -/
def depLocalStep (loc : List String) (raw : String) : List String :=
  match vClean raw with
  | none => loc
  | some line =>
      match matchDepCreate line.toList with
      | some (nm, _) => setAdd loc nm
      | none => loc

def depLocals (lines : List String) : List String :=
  lines.foldl depLocalStep []

/-- `_validate_single` on one sample (its `output` DSL text), returning the
result record and the updated batch created-object set. Level 1 runs the
parser; level 2 runs when syntax passed; level 3 runs when semantic_ok is
still true (which includes syntax-failed samples, whose level 2 is
skipped); the final verdict is recomputed from the flags and errors. -/
def validateSingle (created : List String) (dslCode : String) :
    VResult × List String :=
  if pyStrip dslCode = "" then
    (⟨false, false, true, true, ["DSL 代码为空"], [], 0, []⟩, created)
  else
    let lines := pySplitNl dslCode
    let ps := parseLines none lines
    if ps.plan.isEmpty then
      let dep := dependencyValidate created lines []
      (⟨false, false, true, true, ["Parser 返回空计划"], dep.1, 0, []⟩, dep.2)
    else
      let commands := analyzeCommands ps.plan
      let created1 := analyzeCreated ps.plan created
      let sem := semanticValidate lines true ps.errors ps.warnings
      if sem.1 then
        let dep := dependencyValidate created1 lines sem.2.2
        (⟨sem.2.1.isEmpty, true, true, true, sem.2.1, dep.1,
          ps.plan.length, commands⟩, dep.2)
      else
        (⟨false, true, false, true, sem.2.1, sem.2.2,
          ps.plan.length, commands⟩, created1)

/-! ## Claims C9 and C10: validator verdict and created-set growth -/

theorem setAdd_mem {s : List String} {x : String} (y : String) (h : x ∈ s) :
    x ∈ setAdd s y := by
  unfold setAdd
  split
  · exact h
  · exact List.mem_append_left _ h

theorem setAdd_self (s : List String) (y : String) : y ∈ setAdd s y := by
  unfold setAdd
  split
  · next h => exact List.mem_of_elem_eq_true h
  · exact List.mem_append_right _ (by simp)

theorem setUnion_mem_left {s : List String} {x : String} (xs : List String)
    (h : x ∈ s) : x ∈ setUnion s xs := by
  induction xs generalizing s with
  | nil => exact h
  | cons y ys ih => exact ih (setAdd_mem y h)

theorem setUnion_mem_right {xs : List String} {x : String} (s : List String)
    (h : x ∈ xs) : x ∈ setUnion s xs := by
  induction xs generalizing s with
  | nil => simp at h
  | cons y ys ih =>
      rcases List.mem_cons.mp h with rfl | h'
      · exact setUnion_mem_left ys (setAdd_self s x)
      · exact ih _ h'

/-- One analyze step adds exactly the step's truthy create name. -/
theorem analyzeCreated_cons (s : Step) (rest : List Step)
    (created : List String) :
    analyzeCreated (s :: rest) created =
      analyzeCreated rest (setUnion created (stepNames s)) := by
  unfold analyzeCreated stepNames
  dsimp only [List.foldl]
  congr 1
  split
  · cases lookupTab s.args "name" with
    | none => simp [setUnion]
    | some v =>
        cases v with
        | ps n =>
            dsimp only
            split
            · simp [setUnion]
            · simp [setUnion]
        | pb b => simp [setUnion]
        | pi n => simp [setUnion]
        | pf q => simp [setUnion]
  · simp [setUnion]

theorem analyzeCreated_mono (plan : List Step) :
    ∀ (created : List String) (x : String), x ∈ created →
      x ∈ analyzeCreated plan created := by
  induction plan with
  | nil => intro created x h; exact h
  | cons s rest ih =>
      intro created x h
      rw [analyzeCreated_cons]
      exact ih _ x (setUnion_mem_left _ h)

theorem analyzeCreated_names (plan : List Step) :
    ∀ (created : List String) (n : String), n ∈ createNamesOf plan →
      n ∈ analyzeCreated plan created := by
  induction plan with
  | nil => intro created n h; simp [createNamesOf] at h
  | cons s rest ih =>
      intro created n h
      rw [analyzeCreated_cons]
      have hsplit : createNamesOf (s :: rest) =
          stepNames s ++ createNamesOf rest := by
        simp [createNamesOf]
      rw [hsplit] at h
      rcases List.mem_append.mp h with h' | h'
      · exact analyzeCreated_mono rest _ n (setUnion_mem_right _ h')
      · exact ih _ n h'

/-- The local-created component of one dependency step ignores warnings. -/
theorem depStep_fst (sys created : List String)
    (acc : List String × List String) (raw : String) :
    (depStep sys created acc raw).1 = depLocalStep acc.1 raw := by
  unfold depStep depLocalStep
  cases hv : vClean raw with
  | none => rfl
  | some line =>
      dsimp only
      cases hc : matchDepCreate line.toList with
      | none => rfl
      | some pr =>
          obtain ⟨nm, par⟩ := pr
          dsimp only
          split <;> rfl

theorem depFold_fst (sys created : List String) (lines : List String) :
    ∀ (acc : List String × List String),
      (lines.foldl (depStep sys created) acc).1 =
        lines.foldl depLocalStep acc.1 := by
  induction lines with
  | nil => intro acc; rfl
  | cons raw rest ih =>
      intro acc
      dsimp only [List.foldl]
      rw [ih, depStep_fst]

/-- The created-set effect of the dependency level is exactly the union
with the locally declared CREATE names. -/
theorem dependencyValidate_created (created lines warns0) :
    (dependencyValidate created lines warns0).2 =
      setUnion created (depLocals lines) := by
  unfold dependencyValidate depLocals
  rw [depFold_fst]

/-- C9: the verdict is valid exactly when syntax passed, semantic passed
and zero errors were recorded (warnings never invalidate); and the bogus
slot sample fails semantic validation with exactly one recorded error,
which references the token Bogus. -/
theorem validateSingle_snd (created : List String) (code : String) :
    (validateSingle created code).2 =
      (if pyStrip code = "" then created
       else if (parseLines none (pySplitNl code)).plan.isEmpty then
         setUnion created (depLocals (pySplitNl code))
       else if (semanticValidate (pySplitNl code) true
           (parseLines none (pySplitNl code)).errors
           (parseLines none (pySplitNl code)).warnings).1 then
         setUnion (analyzeCreated (parseLines none (pySplitNl code)).plan created)
           (depLocals (pySplitNl code))
       else analyzeCreated (parseLines none (pySplitNl code)).plan created) := by
  unfold validateSingle
  by_cases h1 : pyStrip code = ""
  · rw [if_pos h1, if_pos h1]
  · rw [if_neg h1, if_neg h1]
    by_cases h2 : (parseLines none (pySplitNl code)).plan.isEmpty = true
    · rw [if_pos h2, if_pos h2]
      exact dependencyValidate_created created (pySplitNl code) []
    · rw [if_neg h2, if_neg h2]
      by_cases h3 : (semanticValidate (pySplitNl code) true
          (parseLines none (pySplitNl code)).errors
          (parseLines none (pySplitNl code)).warnings).1 = true
      · rw [if_pos h3, if_pos h3]
        exact dependencyValidate_created _ (pySplitNl code) _
      · rw [if_neg h3, if_neg h3]

theorem validateSingle_semOk (created : List String) (code : String) :
    (validateSingle created code).1.semantic_ok =
      (if pyStrip code = "" then true
       else if (parseLines none (pySplitNl code)).plan.isEmpty then true
       else (semanticValidate (pySplitNl code) true
           (parseLines none (pySplitNl code)).errors
           (parseLines none (pySplitNl code)).warnings).1) := by
  unfold validateSingle
  by_cases h1 : pyStrip code = ""
  · rw [if_pos h1, if_pos h1]
  · rw [if_neg h1, if_neg h1]
    by_cases h2 : (parseLines none (pySplitNl code)).plan.isEmpty = true
    · rw [if_pos h2, if_pos h2]
    · rw [if_neg h2, if_neg h2]
      by_cases h3 : (semanticValidate (pySplitNl code) true
          (parseLines none (pySplitNl code)).errors
          (parseLines none (pySplitNl code)).warnings).1 = true
      · rw [if_pos h3]
        exact h3.symm
      · rw [if_neg h3]
        simp only [Bool.not_eq_true] at h3
        exact h3.symm

theorem validator_verdict :
    (∀ (created : List String) (code : String),
      (validateSingle created code).1.is_valid =
        ((validateSingle created code).1.syntax_ok &&
         (validateSingle created code).1.semantic_ok &&
         (validateSingle created code).1.errors.isEmpty)) ∧
    (validateSingle [] "LINK \"X\" TO \"Y\" AS \"Bogus\"").1.semantic_ok
      = false ∧
    (validateSingle [] "LINK \"X\" TO \"Y\" AS \"Bogus\"").1.is_valid
      = false ∧
    (validateSingle [] "LINK \"X\" TO \"Y\" AS \"Bogus\"").1.errors =
      ["无效的引用类型 \x27Bogus\x27"] ∧
    strIn "Bogus" "无效的引用类型 \x27Bogus\x27" = true := by
  refine ⟨?_, by decide, by decide, by decide, by decide⟩
  intro created code
  unfold validateSingle
  by_cases h1 : pyStrip code = ""
  · rw [if_pos h1]
    rfl
  · rw [if_neg h1]
    by_cases h2 : (parseLines none (pySplitNl code)).plan.isEmpty = true
    · rw [if_pos h2]
      rfl
    · rw [if_neg h2]
      by_cases h3 : (semanticValidate (pySplitNl code) true
          (parseLines none (pySplitNl code)).errors
          (parseLines none (pySplitNl code)).warnings).1 = true
      · rw [if_pos h3]
        rfl
      · rw [if_neg h3]
        rfl

/-- C10: the batch created-object set grows monotonically across a
validation — names are only added, never removed; every truthy create-step
name of the parsed plan is added whenever the sample text is nonblank
(plan analysis); and every CREATE-line name is added whenever the
dependency level runs (final semantic_ok true), regardless of the final
verdict. -/
theorem validator_created_monotone :
    (∀ (created : List String) (code : String) (x : String),
       x ∈ created → x ∈ (validateSingle created code).2) ∧
    (∀ (created : List String) (code : String) (n : String),
       pyStrip code ≠ "" →
       n ∈ createNamesOf (parseLines none (pySplitNl code)).plan →
       n ∈ (validateSingle created code).2) ∧
    (∀ (created : List String) (code : String) (n : String),
       pyStrip code ≠ "" →
       (validateSingle created code).1.semantic_ok = true →
       n ∈ depLocals (pySplitNl code) →
       n ∈ (validateSingle created code).2) := by
  refine ⟨?_, ?_, ?_⟩
  · intro created code x h
    rw [validateSingle_snd]
    by_cases h1 : pyStrip code = ""
    · rw [if_pos h1]
      exact h
    · rw [if_neg h1]
      by_cases h2 : (parseLines none (pySplitNl code)).plan.isEmpty = true
      · rw [if_pos h2]
        exact setUnion_mem_left _ h
      · rw [if_neg h2]
        by_cases h3 : (semanticValidate (pySplitNl code) true
            (parseLines none (pySplitNl code)).errors
            (parseLines none (pySplitNl code)).warnings).1 = true
        · rw [if_pos h3]
          exact setUnion_mem_left _ (analyzeCreated_mono _ _ _ h)
        · rw [if_neg h3]
          exact analyzeCreated_mono _ _ _ h
  · intro created code n hne h
    rw [validateSingle_snd, if_neg hne]
    by_cases h2 : (parseLines none (pySplitNl code)).plan.isEmpty = true
    · exfalso
      have hpl : (parseLines none (pySplitNl code)).plan = [] := by
        simpa using h2
      rw [hpl] at h
      simp [createNamesOf] at h
    · rw [if_neg h2]
      by_cases h3 : (semanticValidate (pySplitNl code) true
          (parseLines none (pySplitNl code)).errors
          (parseLines none (pySplitNl code)).warnings).1 = true
      · rw [if_pos h3]
        exact setUnion_mem_left _ (analyzeCreated_names _ _ _ h)
      · rw [if_neg h3]
        exact analyzeCreated_names _ _ _ h
  · intro created code n hne hsem h
    rw [validateSingle_semOk, if_neg hne] at hsem
    rw [validateSingle_snd, if_neg hne]
    by_cases h2 : (parseLines none (pySplitNl code)).plan.isEmpty = true
    · rw [if_pos h2]
      exact setUnion_mem_right _ h
    · rw [if_neg h2] at hsem ⊢
      rw [if_pos hsem]
      exact setUnion_mem_right _ h

/-- C10 witness: a sample whose final verdict is invalid (bogus LINK slot)
still registers its created name A in the batch set. -/
theorem validator_created_monotone_witness :
    (validateSingle []
      "CREATE Sound \"A\" UNDER \"B\"\nLINK \"A\" TO \"Y\" AS \"Bogus\"").1.is_valid
      = false ∧
    "A" ∈ (validateSingle []
      "CREATE Sound \"A\" UNDER \"B\"\nLINK \"A\" TO \"Y\" AS \"Bogus\"").2 :=
  ⟨by decide,
   validator_created_monotone.2.1 []
     "CREATE Sound \"A\" UNDER \"B\"\nLINK \"A\" TO \"Y\" AS \"Bogus\"" "A"
     (by decide) (by decide)⟩

/-! ## The reverse compiler (app_reverse.py)

`WwiseReverseCompilerV3`: .wwu elements to DSL subtrees. An element is
reduced to exactly what the compiler reads: the tag, the Name attribute,
the PropertyList entries (Name, Value attributes, each possibly absent),
the ReferenceList entries (Reference Name — always present in .wwu data —
paired with the Name of the ObjectRef child, absent when the ObjectRef or
its Name is missing), the SwitchAssignmentList entries (ChildRef and
StateRef Names, likewise optional), and the ChildrenList elements. -/

inductive XElem where
  | mk (tag : String) (name : Option String)
       (props : List (Option String × Option String))
       (refs : List (String × Option String))
       (assigns : List (Option String × Option String))
       (children : List XElem)

def XElem.tag : XElem → String
  | .mk t _ _ _ _ _ => t

def XElem.name : XElem → Option String
  | .mk _ n _ _ _ _ => n

def XElem.props : XElem → List (Option String × Option String)
  | .mk _ _ p _ _ _ => p

def XElem.refs : XElem → List (String × Option String)
  | .mk _ _ _ r _ _ => r

def XElem.assigns : XElem → List (Option String × Option String)
  | .mk _ _ _ _ a _ => a

def XElem.children : XElem → List XElem
  | .mk _ _ _ _ _ c => c

/-- `self.property_whitelist`. -/
def propertyWhitelist : List String :=
  ["Volume", "Pitch", "Lowpass", "Highpass", "InitialValue", "MinValue",
   "MaxValue", "OverrideOutput", "OverridePositioning",
   "OverrideGameAuxSends", "MakeUpGain", "BusVolume", "InitialDelay",
   "IsLoopingEnabled", "IsLoopingInfinite", "Inclusion", "Color",
   "Priority"]

/-- `self.ref_type_map`. -/
def refTypeMap : List (String × String) :=
  [("OutputBus", "Bus"), ("Attenuation", "Attenuation"),
   ("UserAuxSend0", "UserAuxSend0"), ("UserAuxSend1", "UserAuxSend1"),
   ("Effect0", "Effect0"), ("Effect1", "Effect1"), ("Effect2", "Effect2"),
   ("Effect3", "Effect3"), ("Conversion", "Conversion"),
   ("SwitchGroupOrStateGroup", "SwitchGroupOrStateGroup"),
   ("StateGroup", "StateGroup"), ("GameParameter", "GameParameter")]

/-- `self.xml_tag_to_dsl`. -/
def xmlTagToDsl : List (String × String) :=
  [("WorkUnit", "WorkUnit"), ("Folder", "Folder"),
   ("ActorMixer", "ActorMixer"),
   ("RandomSequenceContainer", "RandomSequenceContainer"),
   ("SwitchContainer", "SwitchContainer"),
   ("BlendContainer", "BlendContainer"), ("Sound", "Sound"),
   ("Bus", "Bus"), ("AuxBus", "AuxBus"), ("Event", "Event"),
   ("Action", "Action"), ("SwitchGroup", "SwitchGroup"),
   ("Switch", "Switch"), ("StateGroup", "StateGroup"), ("State", "State"),
   ("GameParameter", "GameParameter"), ("Effect", "Effect"),
   ("Attenuation", "Attenuation"), ("AcousticTexture", "AcousticTexture")]

/-- `self.action_type_map`. -/
def actionTypeMap : List (String × String) :=
  [("1", "PLAY"), ("2", "STOP"), ("3", "PAUSE"), ("4", "RESUME"),
   ("5", "BREAK"), ("7", "MUTE"), ("8", "UNMUTE"),
   ("17", "SETGAMEPARAMETER"), ("18", "SETSTATE"), ("19", "SETSWITCH"),
   ("20", "RESETGAMEPARAMETER")]

/-- `self.logic_root_types` (Sound deliberately removed in V3.2). -/
def logicRootTypes : List String :=
  ["RandomSequenceContainer", "SwitchContainer", "BlendContainer",
   "ActorMixer", "Event", "Bus", "AuxBus", "SwitchGroup", "StateGroup",
   "GameParameter", "Attenuation"]

/-- `_is_default_value`. -/
def defaultsMap : List (String × String) :=
  [("Volume", "0"), ("Pitch", "0"), ("Lowpass", "0"), ("Highpass", "0"),
   ("InitialValue", "0"), ("Priority", "50"), ("IsLoopingEnabled", "False"),
   ("Inclusion", "True")]

def isDefaultValue (propName value : String) : Bool :=
  lookupTab defaultsMap propName = some value

/-- Python `str.capitalize()`. -/
def pyCapitalize (s : String) : String :=
  match s.toList with
  | [] => ""
  | c :: rest => ⟨c.toUpper :: rest.map Char.toLower⟩

/-- Multiplicity of a prime factor, fueled. -/
def multy (p : Nat) : Nat → Nat → Nat
  | 0, _ => 0
  | fuel + 1, n => if n % p = 0 && n ≠ 0 then multy p fuel (n / p) + 1 else 0

def padZeros (s : String) (k : Nat) : String :=
  ⟨List.replicate (k - s.length) '0'⟩ ++ s

/-- `str(float(v))` for a finite decimal: the shortest plain decimal form
with at least one fractional digit, matching CPython for the magnitudes
occurring in .wwu property values (no exponent regime, and 0 prints as
`0.0`). -/
def formatFloat (q : Rat) : String :=
  let sgn := if q < 0 then "-" else ""
  let num := q.num.natAbs
  let den := q.den
  let k := max (multy 2 den den) (multy 5 den den)
  let scaled := num * 10 ^ k / den
  let ip := scaled / 10 ^ k
  let fp := scaled % 10 ^ k
  if k = 0 then sgn ++ toString ip ++ ".0"
  else sgn ++ toString ip ++ "." ++ padZeros (toString fp) k

/-- `_format_property_value`. -/
def formatPropertyValue (value : String) : String :=
  if pyLower value = "true" || pyLower value = "false" then
    pyCapitalize value
  else if strIn "." value then
    match pyFloat? value with
    | some q => formatFloat q
    | none => "\"" ++ value ++ "\""
  else
    match pyInt? value with
    | some n => toString n
    | none => "\"" ++ value ++ "\""

/-- The default objects whose CREATE is skipped by `_get_object_dsl`. -/
def skipNames : List String :=
  ["Default Work Unit", "Master Audio Bus", "Master-Mixer Hierarchy"]

def mkCreateLine (t n p : String) : String :=
  "CREATE " ++ t ++ " \"" ++ n ++ "\" UNDER \"" ++ p ++ "\""

def mkSetPropLine (obj prop val : String) : String :=
  "SET_PROP \"" ++ obj ++ "\" \"" ++ prop ++ "\" = " ++ val

def mkLinkLine (child target rtype : String) : String :=
  "LINK \"" ++ child ++ "\" TO \"" ++ target ++ "\" AS \"" ++ rtype ++ "\""

def mkAssignLine (child state : String) : String :=
  "ASSIGN \"" ++ child ++ "\" TO \"" ++ state ++ "\""

def mkAddActionLine (ev atype target : String) : String :=
  "ADD_ACTION \"" ++ ev ++ "\" " ++ atype ++ " \"" ++ target ++ "\""

/-- `_extract_action`: the ActionType property (defaulting to 1 = Play) and
the Target reference of one Action element. -/
def extractAction (a : XElem) (eventName : String) : List String :=
  let atv : String :=
    match a.props.find? (fun pr => pr.1 = some "ActionType") with
    | some pr => pr.2.getD "1"
    | none => "1"
  let atStr := (lookupTab actionTypeMap atv).getD "PLAY"
  match a.refs.find? (fun r => r.1 = "Target") with
  | some r =>
      match r.2 with
      | some t => if t = "" then [] else [mkAddActionLine eventName atStr t]
      | none => []
  | none => []

/-- `_get_object_dsl`: one element's own CREATE, SET_PROP, LINK, ASSIGN
and ADD_ACTION lines, in that order. -/
def getObjectDsl (e : XElem) (parentName : String) : List String :=
  match e.name with
  | none => []
  | some name =>
      if name = "" then []
      else
        match lookupTab xmlTagToDsl e.tag with
        | none => []
        | some dslType =>
            let createLines : List String :=
              if skipNames.contains name then []
              else [mkCreateLine dslType name parentName]
            let propLines : List String := e.props.filterMap fun pr =>
              match pr.1, pr.2 with
              | some pn, some pv =>
                  if propertyWhitelist.contains pn && pv ≠ "" &&
                     !(isDefaultValue pn pv) then
                    some (mkSetPropLine name pn (formatPropertyValue pv))
                  else none
              | _, _ => none
            let refLines : List String := e.refs.filterMap fun r =>
              let drt : Option String :=
                match lookupTab refTypeMap r.1 with
                | some v => some v
                | none => if strIn "Effect" r.1 then some r.1 else none
              match drt with
              | some rt =>
                  match r.2 with
                  | some tn =>
                      if tn ≠ "" && tn ≠ "Master Audio Bus" then
                        some (mkLinkLine name tn rt)
                      else none
                  | none => none
              | none => none
            let assignLines : List String :=
              if e.tag = "SwitchContainer" then
                e.assigns.filterMap fun a =>
                  match a.1, a.2 with
                  | some cn, some sn =>
                      if cn ≠ "" && sn ≠ "" then some (mkAssignLine cn sn)
                      else none
                  | _, _ => none
              else []
            let actionLines : List String :=
              if e.tag = "Event" then
                (e.children.filter (fun c => c.tag = "Action")).flatMap
                  (fun a => extractAction a name)
              else []
            createLines ++ propLines ++ refLines ++ assignLines ++ actionLines

mutual
/-- `_get_subtree_dsl`: the element's own lines followed by every
non-Action child's subtree, parent-before-child, with the running maximum
depth. -/
def subtreeDsl : XElem → String → Nat → List String × Nat
  | .mk tag nm props refs assigns children, parentName, depth =>
      let own := getObjectDsl (.mk tag nm props refs assigns children) parentName
      match nm with
      | none => (own, depth)
      | some n =>
          if n = "" then (own, depth)
          else subtreeFold children n depth (own, depth)

def subtreeFold : List XElem → String → Nat → List String × Nat →
    List String × Nat
  | [], _, _, acc => acc
  | c :: rest, parentName, depth, acc =>
      if c.tag = "Action" then subtreeFold rest parentName depth acc
      else
        let r := subtreeDsl c parentName (depth + 1)
        subtreeFold rest parentName depth (acc.1 ++ r.1, max acc.2 r.2)
end

/-- `_count_commands`: first-matching-prefix tally, in key order. -/
def countKeys : List String :=
  ["CREATE", "SET_PROP", "LINK", "ASSIGN", "ADD_ACTION"]

def countCommands (lines : List String) : List (String × Nat) :=
  lines.foldl
    (fun cm l =>
      match countKeys.find? (fun k => pyStarts l k) with
      | some k => bump cm k
      | none => cm)
    [("CREATE", 0), ("SET_PROP", 0), ("LINK", 0), ("ASSIGN", 0),
     ("ADD_ACTION", 0)]

/-- `_calculate_complexity`: the ordered tier decision on line count,
depth, and substring presence of ASSIGN / ADD_ACTION / LINK. -/
def calcComplexity (dslLines : List String) (depth : Nat) : String :=
  let lineCount := dslLines.length
  let hasAssign := dslLines.any fun l => strIn "ASSIGN" l
  let hasAction := dslLines.any fun l => strIn "ADD_ACTION" l
  let linkCount := (dslLines.filter fun l => strIn "LINK" l).length
  if lineCount ≤ 3 && depth ≤ 1 then "simple"
  else if lineCount ≤ 10 && depth ≤ 2 then "medium"
  else if hasAssign || hasAction || linkCount ≥ 3 || depth ≥ 3 then "expert"
  else "complex"

/-- One emitted sample block (the source-file provenance field is
dropped). -/
structure Block where
  lines : List String
  root_type : String
  root_name : String
  depth : Nat
  counts : List (String × Nat)
  complexity : String
deriving DecidableEq, Repr

mutual
/-- `_traverse_and_collect`: emit one block per logic-root element with a
nonempty subtree, then recurse into non-Action children. -/
def traverseCollect : XElem → String → List Block
  | .mk tag nm props refs assigns children, parentName =>
      match nm with
      | none => []
      | some n =>
          if n = "" then []
          else
            let own : List Block :=
              if logicRootTypes.contains tag then
                let r := subtreeDsl (.mk tag nm props refs assigns children)
                  parentName 0
                if r.1.isEmpty then []
                else [⟨r.1, tag, n, r.2, countCommands r.1,
                      calcComplexity r.1 r.2⟩]
              else []
            own ++ traverseFold children n

def traverseFold : List XElem → String → List Block
  | [], _ => []
  | c :: rest, parentName =>
      (if c.tag = "Action" then [] else traverseCollect c parentName) ++
        traverseFold rest parentName
end

/-! ## Claim C2: complexity classification -/

/-- C2 counterexample: a sample consisting of one ASSIGN instruction at
depth 1 classifies as simple — not as the claimed highest tier — because
the `line_count <= 3 and depth <= 1` branch is tested first. -/
theorem complexity_assign_counterexample :
    calcComplexity ["ASSIGN \"Grass\" TO \"Wet\""] 1 = "simple" := by decide

/-- C2 as amended: (i) a sample of at most 3 lines and depth at most 1
(in particular one CREATE line at depth 0) classifies as simple;
(ii) depth at least 3 always classifies as expert regardless of line
count; (iii) a sample containing an ASSIGN or ADD_ACTION instruction or
at least 3 LINK lines classifies as expert only when it escapes the
simple and medium tiers — so a one-ASSIGN depth-1 sample is simple. -/
theorem complexity_classification (lines : List String) (depth : Nat) :
    (lines.length ≤ 3 → depth ≤ 1 → calcComplexity lines depth = "simple") ∧
    (3 ≤ depth → calcComplexity lines depth = "expert") ∧
    (((lines.any fun l => strIn "ASSIGN" l) = true ∨
      (lines.any fun l => strIn "ADD_ACTION" l) = true ∨
      3 ≤ (lines.filter fun l => strIn "LINK" l).length) →
      ¬(lines.length ≤ 3 ∧ depth ≤ 1) → ¬(lines.length ≤ 10 ∧ depth ≤ 2) →
      calcComplexity lines depth = "expert") := by
  refine ⟨?_, ?_, ?_⟩
  · intro h1 h2
    unfold calcComplexity
    rw [if_pos (by simp [h1, h2])]
  · intro h3
    unfold calcComplexity
    rw [if_neg (by simp; omega), if_neg (by simp; omega),
        if_pos (by simp; omega)]
  · intro hc h1 h2
    unfold calcComplexity
    rw [if_neg (by simp; omega), if_neg (by simp; omega)]
    rcases hc with h | h | h
    · rw [if_pos (by simp [h])]
    · rw [if_pos (by simp [h])]
    · rw [if_pos (by simp; omega)]

/-- C2 witness: the three amended cases at concrete inputs — one CREATE at
depth 0 is simple, depth 3 alone is expert, and an ASSIGN sample is expert
once it has more than 10 lines. -/
theorem complexity_classification_witness :
    calcComplexity ["CREATE Sound \"A\" UNDER \"B\""] 0 = "simple" ∧
    calcComplexity ["x"] 3 = "expert" ∧
    calcComplexity ["ASSIGN \"A\" TO \"B\"", "a", "b", "c", "d", "e", "f",
      "g", "h", "i", "j"] 1 = "expert" :=
  ⟨(complexity_classification ["CREATE Sound \"A\" UNDER \"B\""] 0).1
      (by decide) (by decide),
   (complexity_classification ["x"] 3).2.1 (by decide),
   (complexity_classification ["ASSIGN \"A\" TO \"B\"", "a", "b", "c", "d",
      "e", "f", "g", "h", "i", "j"] 1).2.2 (Or.inl (by decide)) (by decide)
      (by decide)⟩

/-! ## Claim C1: the ordering invariant of emitted samples -/

/-- The name a line introduces, read by the forward CREATE grammar. -/
def createdName (l : String) : Option String :=
  (matchCreate l.toList).map fun g => g.2.1

/-- The UNDER parent a line references, read by the forward CREATE
grammar. -/
def underParent (l : String) : Option String :=
  (matchCreate l.toList).map fun g => g.2.2

/-- The target of an ASSIGN line, read by the forward ASSIGN grammar. -/
def assignTarget (l : String) : Option String :=
  (matchAssign l.toList).map fun g => g.2

/-- A usable object name: nonempty and quote-free (a quote would break the
generated line out of the DSL string syntax). -/
def goodName (s : String) : Bool :=
  !(s = "") && !(s.toList.contains '"')

mutual
/-- Well-formed input subtree for the ordering theorem: every element is
named with a usable name and carries a DSL-translatable tag (Action
children are exempt — the subtree walk skips them). -/
def goodElem : XElem → Bool
  | .mk tag nm _ _ _ children =>
      (match nm with
       | some n => goodName n && (lookupTab xmlTagToDsl tag).isSome
       | none => false) &&
      goodForest children

def goodForest : List XElem → Bool
  | [] => true
  | c :: rest => (c.tag = "Action" || goodElem c) && goodForest rest
end

/-- The C1 counterexample tree: a switch container whose state assignment
names a child sound that shares the state's name — the ubiquitous
footsteps pattern. -/
def cexTree : XElem :=
  .mk "SwitchContainer" (some "SC") [] [] [(some "Grass", some "Grass")]
    [.mk "Sound" (some "Grass") [] [] [] []]

/-! ### Character and string facts for the grammar roundtrip -/

theorem toList_append (s t : String) : (s ++ t).toList = s.toList ++ t.toList :=
  String.data_append s t

theorem mk_toList (s : String) : (⟨s.toList⟩ : String) = s := rfl

theorem toList_ne_nil {s : String} (h : ¬s = "") : s.toList ≠ [] := by
  intro hnil
  apply h
  cases s with
  | mk d =>
      cases hnil
      rfl

theorem word_not_space {c : Char} (h : isWordChar c = true) :
    isPySpace c = false := by
  by_cases h1 : c = ' '
  · subst h1; exact absurd h (by decide)
  by_cases h2 : c = '\t'
  · subst h2; exact absurd h (by decide)
  by_cases h3 : c = '\n'
  · subst h3; exact absurd h (by decide)
  by_cases h4 : c = '\r'
  · subst h4; exact absurd h (by decide)
  by_cases h5 : c = '\x0b'
  · subst h5; exact absurd h (by decide)
  by_cases h6 : c = '\x0c'
  · subst h6; exact absurd h (by decide)
  simp [isPySpace, h1, h2, h3, h4, h5, h6]

theorem word_not_quote {c : Char} (h : isWordChar c = true) : c ≠ '"' := by
  intro rfl'
  subst rfl'
  exact absurd h (by decide)

theorem not_mem_of_contains_false {l : List Char} {a : Char}
    (h : l.contains a = false) : ∀ c ∈ l, c ≠ a := by
  intro c hc heq
  subst heq
  have hel : List.elem c l = true := List.elem_eq_true_of_mem hc
  simp only [List.contains] at h
  rw [hel] at h
  cases h

theorem dropLit_self (ks : List Char) : ∀ m, dropLit ks (ks ++ m) = some m := by
  induction ks with
  | nil => intro m; rfl
  | cons k ks ih => intro m; simp [dropLit, ih]

theorem dropSpaces1_space (tail : List Char) :
    dropSpaces1 (' ' :: tail) = some (tail.dropWhile isPySpace) := by
  simp [dropSpaces1, isPySpace]

theorem dropWhile_not_head {p : Char → Bool} {a : Char} {l : List Char}
    (h : p a = false) : List.dropWhile p (a :: l) = a :: l := by
  simp [List.dropWhile_cons, h]

theorem takeWhile_append_stop {p : Char → Bool} (A : List Char) (b : Char)
    (B : List Char) (hA : ∀ c ∈ A, p c = true) (hb : p b = false) :
    (A ++ b :: B).takeWhile p = A ∧ (A ++ b :: B).dropWhile p = b :: B := by
  induction A with
  | nil => simp [List.takeWhile_cons, List.dropWhile_cons, hb]
  | cons a A ih =>
      have ha : p a = true := hA a (by simp)
      have ih' := ih fun c hc => hA c (by simp [hc])
      simp [List.takeWhile_cons, List.dropWhile_cons, ha, ih'.1, ih'.2]

theorem dropWhile_eq_self_of_all {p : Char → Bool} :
    ∀ {l : List Char}, (∀ c ∈ l, p c = false) → l.dropWhile p = l := by
  intro l h
  cases l with
  | nil => rfl
  | cons a m => exact dropWhile_not_head (h a (by simp))

theorem pyStripL_word_append_space {X : List Char}
    (hX : ∀ c ∈ X, isPySpace c = false) (hne : X ≠ []) :
    pyStripL (X ++ [' ']) = X := by
  unfold pyStripL
  obtain ⟨c0, X', rfl⟩ : ∃ c0 X', X = c0 :: X' := by
    cases X with
    | nil => exact absurd rfl hne
    | cons a l => exact ⟨a, l, rfl⟩
  rw [List.cons_append, dropWhile_not_head (hX c0 (by simp))]
  have hrev : (c0 :: (X' ++ [' '])).reverse = ' ' :: ((c0 :: X').reverse) := by
    simp
  rw [hrev]
  rw [show List.dropWhile isPySpace (' ' :: ((c0 :: X').reverse)) =
      List.dropWhile isPySpace ((c0 :: X').reverse) by
    simp [List.dropWhile_cons, isPySpace]]
  rw [dropWhile_eq_self_of_all fun c hc =>
    hX c (List.mem_reverse.mp hc)]
  simp

/-- The forward CREATE grammar parses back a generated CREATE line exactly
when the type token is a word and both names are usable. -/
theorem matchCreate_roundtrip (t n p : String)
    (ht : t.toList ≠ [] ∧ t.toList.all isWordChar = true)
    (hn : goodName n = true) (hp : goodName p = true) :
    matchCreate (mkCreateLine t n p).toList = some (t, n, p) := by
  obtain ⟨htne, htw⟩ := ht
  have hwt : ∀ c ∈ t.toList, isWordChar c = true := fun c hc =>
    List.all_eq_true.mp htw c hc
  simp only [goodName, Bool.and_eq_true, Bool.not_eq_true',
    decide_eq_false_iff_not] at hn hp
  have hnq := not_mem_of_contains_false hn.2
  have hpq := not_mem_of_contains_false hp.2
  have hnne : n.toList ≠ [] := toList_ne_nil hn.1
  have hpne : p.toList ≠ [] := toList_ne_nil hp.1
  have l1 : "CREATE ".toList = ['C','R','E','A','T','E',' '] := rfl
  have l2 : " \"".toList = [' ','"'] := rfl
  have l3 : "\" UNDER \"".toList = ['"',' ','U','N','D','E','R',' ','"'] := rfl
  have l4 : "\"".toList = ['"'] := rfl
  have hflat : (mkCreateLine t n p).toList =
      "CREATE".toList ++ (' ' ::
        (t.toList ++ (' ' :: '"' ::
          (n.toList ++ ('"' :: ' ' :: 'U' :: 'N' :: 'D' :: 'E' :: 'R' ::
            ' ' :: '"' :: (p.toList ++ ['"'])))))) := by
    simp [mkCreateLine, toList_append, l1, l2, l3, l4]
  rw [hflat]
  simp only [matchCreate]
  rw [dropLit_self]
  simp only [Option.bind_eq_bind, Option.some_bind]
  rw [dropSpaces1_space]
  simp only [Option.some_bind]
  obtain ⟨c0, ttail, hT⟩ : ∃ c0 ttail, t.toList = c0 :: ttail := by
    cases hc : t.toList with
    | nil => exact absurd hc htne
    | cons a l => exact ⟨a, l, rfl⟩
  rw [hT]
  rw [List.cons_append, dropWhile_not_head (word_not_space (hwt c0 (by rw [hT]; simp)))]
  have hwords : ∀ c ∈ (c0 :: ttail), isWordChar c = true := by
    intro c hc
    exact hwt c (by rw [hT]; exact hc)
  set R2 := n.toList ++ '\"' :: ' ' :: 'U' :: 'N' :: 'D' :: 'E' :: 'R' :: ' ' :: '\"' :: (p.toList ++ ['\"']) with hR2
  have hshape : c0 :: (ttail ++ ' ' :: '\"' :: R2) = ((c0 :: ttail) ++ [' ']) ++ '\"' :: R2 := by
    simp
  have hAll : ∀ c ∈ (c0 :: ttail) ++ [' '], (fun c => decide (c ≠ '\"')) c = true := by
    intro c hc
    rcases List.mem_append.mp hc with h | h
    · simp [word_not_quote (hwords c h)]
    · simp at h
      subst h
      decide
  have hTW := takeWhile_append_stop ((c0 :: ttail) ++ [' ']) '\"' R2 hAll (by decide)
  have hT1 : List.takeWhile (fun c => decide (c ≠ '\"')) (c0 :: (ttail ++ ' ' :: '\"' :: R2)) = c0 :: (ttail ++ [' ']) := by
    rw [hshape, hTW.1]
    simp
  have hT2 : List.dropWhile (fun c => decide (c ≠ '\"')) (c0 :: (ttail ++ ' ' :: '\"' :: R2)) = '\"' :: R2 := by
    rw [hshape, hTW.2]
  rw [hT1, hT2]
  have h1 : isWordChar c0 = true := hwords c0 (by simp)
  have h2 : ((c0 :: (ttail ++ [' '])).all fun c => isWordChar c || isPySpace c || decide (c = '-')) = true := by
    rw [List.all_eq_true]
    intro c hc
    have hc2 : c ∈ (c0 :: ttail) ++ [' '] := by simpa using hc
    rcases List.mem_append.mp hc2 with h | h
    · simp [hwords c h]
    · simp at h
      subst h
      decide
  have hlast : ((c0 :: (ttail ++ [' '])).getLastD '\"') = ' ' := by
    have he : (c0 :: (ttail ++ [' '])) = (c0 :: ttail) ++ [' '] := by simp
    rw [he]
    exact List.getLastD_concat _ _ _
  have h3 : isPySpace ((c0 :: (ttail ++ [' '])).getLastD '\"') = true := by
    rw [hlast]
    decide
  dsimp only
  rw [h1, h2, h3]
  rw [if_pos (by decide : (true && true && true) = true)]
  rw [hR2]
  have hAlln : ∀ c ∈ n.toList, (fun c => decide (c ≠ '\"')) c = true := by
    intro c hc
    simp [hnq c hc]
  have hTWn := takeWhile_append_stop n.toList '\"'
    (' ' :: 'U' :: 'N' :: 'D' :: 'E' :: 'R' :: ' ' :: '\"' :: (p.toList ++ ['\"'])) hAlln (by decide)
  have hnE : n.toList.isEmpty = false := by
    cases hc : n.toList with
    | nil => exact absurd hc hnne
    | cons a l => rfl
  simp only [takeQuoted]
  rw [hTWn.1, hTWn.2]
  rw [hnE]
  simp only [Bool.false_eq_true, if_false]
  simp only [Option.bind_eq_bind, Option.some_bind]
  rw [dropSpaces1_space]
  rw [dropWhile_not_head (by decide : isPySpace 'U' = false)]
  simp only [Option.some_bind]
  have hU : ('U' :: 'N' :: 'D' :: 'E' :: 'R' :: (' ' :: '\"' :: (p.toList ++ ['\"']))) = "UNDER".toList ++ (' ' :: '\"' :: (p.toList ++ ['\"'])) := rfl
  rw [hU, dropLit_self]
  simp only [Option.some_bind]
  rw [dropSpaces1_space]
  rw [dropWhile_not_head (by decide : isPySpace '\"' = false)]
  simp only [Option.some_bind]
  have hAllp : ∀ c ∈ p.toList, (fun c => decide (c ≠ '\"')) c = true := by
    intro c hc
    simp [hpq c hc]
  have hTWp := takeWhile_append_stop p.toList '\"' [] hAllp (by decide)
  rw [hTWp.1, hTWp.2]
  have hpE : p.toList.isEmpty = false := by
    cases hc : p.toList with
    | nil => exact absurd hc hpne
    | cons a l => rfl
  rw [hpE]
  simp only [Bool.false_eq_true, if_false]
  simp only [Option.some_bind]
  have hseg : pyStripL (c0 :: (ttail ++ [' '])) = t.toList := by
    have he : c0 :: (ttail ++ [' ']) = (c0 :: ttail) ++ [' '] := by simp
    rw [he, pyStripL_word_append_space (fun c hc => word_not_space (hwords c hc)) (by simp)]
    exact hT.symm
  rw [hseg]
  simp only [mk_toList]

/-- C1 counterexample: in the emitted sample, the name Grass occurs as an
ASSIGN target on the second line, no CREATE introduces it before that
point, and the sample itself CREATEs it on the third line — so the name is
not pre-existing, yet its use precedes its CREATE. The container's ASSIGN
lines are emitted before its children's CREATE lines. -/
theorem reverse_ordering_counterexample :
    (traverseCollect cexTree "Default Work Unit").map Block.lines =
      [["CREATE SwitchContainer \"SC\" UNDER \"Default Work Unit\"",
        "ASSIGN \"Grass\" TO \"Grass\"",
        "CREATE Sound \"Grass\" UNDER \"SC\""]] ∧
    assignTarget "ASSIGN \"Grass\" TO \"Grass\"" = some "Grass" ∧
    createdName "CREATE SwitchContainer \"SC\" UNDER \"Default Work Unit\""
      ≠ some "Grass" ∧
    createdName "ASSIGN \"Grass\" TO \"Grass\"" = none ∧
    createdName "CREATE Sound \"Grass\" UNDER \"SC\"" = some "Grass" := by
  decide

/-! ### The amended ordering invariant -/

theorem matchCreate_cons_ne (c : Char) (cs : List Char)
    (h : ¬ c.toLower = 'c') : matchCreate (c :: cs) = none := by
  simp only [matchCreate]
  rw [show "CREATE".toList = 'C' :: "REATE".toList from rfl]
  simp [dropLit, h]

theorem matchCreate_mkSetProp (o pr v : String) :
    matchCreate (mkSetPropLine o pr v).toList = none := rfl

theorem matchCreate_mkLink (c t r : String) :
    matchCreate (mkLinkLine c t r).toList = none := rfl

theorem matchCreate_mkAssign (c s : String) :
    matchCreate (mkAssignLine c s).toList = none := rfl

theorem matchCreate_mkAddAction (e a t : String) :
    matchCreate (mkAddActionLine e a t).toList = none := rfl

/-- The ordering invariant of a line list against a context root: every
UNDER parent is the context, a default object, or CREATEd by an earlier
line of the same list. -/
def InvL (L : List String) (ctx : String) : Prop :=
  ∀ (i : Nat) (pn : String), (L[i]?.bind underParent) = some pn →
    pn = ctx ∨ pn ∈ skipNames ∨
    ∃ j : Nat, j < i ∧ (L[j]?.bind createdName) = some pn

theorem InvL_append {A B : List String} {ctx : String}
    (hA : InvL A ctx)
    (hB : ∀ (i : Nat) (pn : String), (B[i]?.bind underParent) = some pn →
      pn = ctx ∨ pn ∈ skipNames ∨
      (∃ j : Nat, j < i ∧ (B[j]?.bind createdName) = some pn) ∨
      (∃ j : Nat, (A[j]?.bind createdName) = some pn)) :
    InvL (A ++ B) ctx := by
  intro i pn hi
  by_cases hlt : i < A.length
  · rw [List.getElem?_append_left hlt] at hi
    rcases hA i pn hi with h | h | ⟨j, hj, hc⟩
    · exact Or.inl h
    · exact Or.inr (Or.inl h)
    · refine Or.inr (Or.inr ⟨j, hj, ?_⟩)
      rw [List.getElem?_append_left (lt_trans hj hlt)]
      exact hc
  · push_neg at hlt
    rw [List.getElem?_append_right hlt] at hi
    rcases hB (i - A.length) pn hi with h | h | ⟨j, hj, hc⟩ | ⟨j, hc⟩
    · exact Or.inl h
    · exact Or.inr (Or.inl h)
    · refine Or.inr (Or.inr ⟨A.length + j, by omega, ?_⟩)
      rw [List.getElem?_append_right (by omega)]
      rw [show A.length + j - A.length = j by omega]
      exact hc
    · have hjA : j < A.length := by
        cases hAj : A[j]? with
        | none => rw [hAj] at hc; simp at hc
        | some a => exact (List.getElem?_eq_some.mp hAj).1
      refine Or.inr (Or.inr ⟨j, by omega, ?_⟩)
      rw [List.getElem?_append_left hjA]
      exact hc

theorem xmlTagToDsl_word {tag dslType : String}
    (h : lookupTab xmlTagToDsl tag = some dslType) :
    dslType.toList ≠ [] ∧ dslType.toList.all isWordChar = true := by
  have hm : dslType ∈ xmlTagToDsl.map Prod.snd := lookupTab_mem_snd h
  have hall : ∀ v ∈ xmlTagToDsl.map Prod.snd,
      v.toList ≠ [] ∧ v.toList.all isWordChar = true := by decide
  exact hall dslType hm

theorem extractAction_none (a : XElem) (ev l : String)
    (h : l ∈ extractAction a ev) : matchCreate l.toList = none := by
  simp only [extractAction] at h
  split at h
  · split at h
    · split at h
      · simp at h
      · simp at h
        subst h
        exact matchCreate_mkAddAction _ _ _
    · simp at h
  · simp at h

theorem getObjectDsl_mem {l : String} (tag n ctx : String)
    (props : List (Option String × Option String))
    (refs : List (String × Option String))
    (assigns : List (Option String × Option String))
    (children : List XElem)
    (hl : l ∈ getObjectDsl (.mk tag (some n) props refs assigns children) ctx) :
    (∃ dslType, lookupTab xmlTagToDsl tag = some dslType ∧
        l = mkCreateLine dslType n ctx) ∨
    matchCreate l.toList = none := by
  by_cases hn : n = ""
  · simp [getObjectDsl, XElem.name, hn] at hl
  · rcases htab : lookupTab xmlTagToDsl tag with _ | dslType
    · simp [getObjectDsl, XElem.name, XElem.tag, hn, htab] at hl
    · simp only [getObjectDsl, XElem.name, XElem.tag, XElem.props, XElem.refs,
        XElem.assigns, XElem.children, htab, if_neg hn] at hl
      rcases List.mem_append.mp hl with hl | hAct
      · rcases List.mem_append.mp hl with hl | hA
        · rcases List.mem_append.mp hl with hl | hR
          · rcases List.mem_append.mp hl with hC | hP
            · split at hC
              · simp at hC
              · simp at hC
                exact Or.inl ⟨dslType, rfl, hC⟩
            · right
              obtain ⟨pr, hmem, hf⟩ := List.mem_filterMap.mp hP
              split at hf
              · split at hf
                · have hf2 := Option.some.inj hf
                  subst hf2
                  exact matchCreate_mkSetProp _ _ _
                · simp at hf
              · simp at hf
          · right
            obtain ⟨r, hmem, hf⟩ := List.mem_filterMap.mp hR
            split at hf
            · split at hf
              · split at hf
                · have hf2 := Option.some.inj hf
                  subst hf2
                  exact matchCreate_mkLink _ _ _
                · simp at hf
              · simp at hf
            · simp at hf
        · right
          split at hA
          · obtain ⟨pr, hmem, hf⟩ := List.mem_filterMap.mp hA
            split at hf
            · split at hf
              · have hf2 := Option.some.inj hf
                subst hf2
                exact matchCreate_mkAssign _ _
              · simp at hf
            · simp at hf
          · simp at hA
      · right
        split at hAct
        · obtain ⟨a, hma, hla⟩ := List.mem_flatMap.mp hAct
          exact extractAction_none a n l hla
        · simp at hAct

theorem getObjectDsl_head (tag n ctx dslType : String)
    (props : List (Option String × Option String))
    (refs : List (String × Option String))
    (assigns : List (Option String × Option String))
    (children : List XElem)
    (hn : ¬ n = "") (htab : lookupTab xmlTagToDsl tag = some dslType)
    (hskip : skipNames.contains n = false) :
    (getObjectDsl (.mk tag (some n) props refs assigns children) ctx)[0]? =
      some (mkCreateLine dslType n ctx) := by
  have hns : ¬ n ∈ skipNames := by simpa using hskip
  simp [getObjectDsl, XElem.name, XElem.tag, XElem.props, XElem.refs,
    XElem.assigns, XElem.children, htab, if_neg hn, hns]

theorem getObjectDsl_inv (tag n ctx : String)
    (props : List (Option String × Option String))
    (refs : List (String × Option String))
    (assigns : List (Option String × Option String))
    (children : List XElem)
    (hgn : goodName n = true) (hgc : goodName ctx = true) :
    InvL (getObjectDsl (.mk tag (some n) props refs assigns children) ctx)
      ctx := by
  intro i pn hi
  cases hL : (getObjectDsl (.mk tag (some n) props refs assigns children)
      ctx)[i]? with
  | none => rw [hL] at hi; simp at hi
  | some l =>
      rw [hL] at hi
      have hmem := List.getElem?_mem hL
      rcases getObjectDsl_mem tag n ctx props refs assigns children hmem with
        ⟨dslType, htab, rfl⟩ | hnone
      · left
        have hw := xmlTagToDsl_word htab
        have hup : underParent (mkCreateLine dslType n ctx) = some ctx := by
          unfold underParent
          rw [matchCreate_roundtrip dslType n ctx hw hgn hgc]
          rfl
        rw [show (some (mkCreateLine dslType n ctx)).bind underParent =
            underParent (mkCreateLine dslType n ctx) from rfl, hup] at hi
        exact (Option.some.inj hi).symm
      · rw [show (some l).bind underParent = underParent l from rfl] at hi
        unfold underParent at hi
        rw [hnone] at hi
        simp at hi

theorem mem_of_contains {l : List String} {a : String}
    (h : l.contains a = true) : a ∈ l := by
  simpa using h

mutual
/-- Each element subtree's lines satisfy the ordering invariant against the
context parent handed to it. -/
theorem subtree_inv (e : XElem) (ctx : String) (d : Nat)
    (hg : goodElem e = true) (hc : goodName ctx = true) :
    InvL (subtreeDsl e ctx d).1 ctx := by
  rcases e with ⟨tag, nm, props, refs, assigns, children⟩
  rcases nm with _ | n
  · simp [goodElem] at hg
  · simp only [goodElem, Bool.and_eq_true] at hg
    obtain ⟨⟨hgn, htabs⟩, hgf⟩ := hg
    have hn : ¬ n = "" := by
      simp only [goodName, Bool.and_eq_true, Bool.not_eq_true',
        decide_eq_false_iff_not] at hgn
      exact hgn.1
    obtain ⟨dslType, htab⟩ := Option.isSome_iff_exists.mp htabs
    have hred : subtreeDsl (.mk tag (some n) props refs assigns children) ctx d
        = subtreeFold children n d
            (getObjectDsl (.mk tag (some n) props refs assigns children) ctx,
             d) := by
      simp [subtreeDsl, hn]
    rw [hred]
    have hacc : InvL (getObjectDsl
        (.mk tag (some n) props refs assigns children) ctx) ctx :=
      getObjectDsl_inv tag n ctx props refs assigns children hgn hc
    have hctx : n = ctx ∨ n ∈ skipNames ∨
        ∃ j : Nat,
          ((getObjectDsl (.mk tag (some n) props refs assigns children)
            ctx)[j]?.bind createdName) = some n := by
      by_cases hskip : skipNames.contains n = true
      · exact Or.inr (Or.inl (mem_of_contains hskip))
      · refine Or.inr (Or.inr ⟨0, ?_⟩)
        have hh := getObjectDsl_head tag n ctx dslType props refs assigns
          children hn htab (by simpa using hskip)
        rw [hh]
        have hw := xmlTagToDsl_word htab
        show createdName (mkCreateLine dslType n ctx) = some n
        unfold createdName
        rw [matchCreate_roundtrip dslType n ctx hw hgn hc]
        rfl
    exact subtreeFold_inv children n d
      (getObjectDsl (.mk tag (some n) props refs assigns children) ctx, d)
      ctx hgf hgn hc hacc hctx

/-- The child fold preserves the ordering invariant: the accumulated lines
already satisfy it and the fold parent is itself justified (context, default
object, or CREATEd in the accumulated lines). -/
theorem subtreeFold_inv (cs : List XElem) (n : String) (d : Nat)
    (acc : List String × Nat) (ctx : String)
    (hf : goodForest cs = true) (hn : goodName n = true)
    (hc : goodName ctx = true)
    (hacc : InvL acc.1 ctx)
    (hctx : n = ctx ∨ n ∈ skipNames ∨
      ∃ j : Nat, (acc.1[j]?.bind createdName) = some n) :
    InvL (subtreeFold cs n d acc).1 ctx := by
  cases cs with
  | nil => simpa [subtreeFold] using hacc
  | cons c rest =>
      simp only [goodForest, Bool.and_eq_true, Bool.or_eq_true,
        decide_eq_true_eq] at hf
      obtain ⟨hco, hfr⟩ := hf
      by_cases hA : c.tag = "Action"
      · rw [show subtreeFold (c :: rest) n d acc =
            subtreeFold rest n d acc by simp [subtreeFold, hA]]
        exact subtreeFold_inv rest n d acc ctx hfr hn hc hacc hctx
      · have hgc : goodElem c = true := by
          rcases hco with h | h
          · exact absurd h hA
          · exact h
        have hrc : InvL (subtreeDsl c n (d + 1)).1 n :=
          subtree_inv c n (d + 1) hgc hn
        have hred : subtreeFold (c :: rest) n d acc =
            subtreeFold rest n d
              (acc.1 ++ (subtreeDsl c n (d + 1)).1,
               max acc.2 (subtreeDsl c n (d + 1)).2) := by
          simp [subtreeFold, hA]
        rw [hred]
        have hacc2 : InvL (acc.1 ++ (subtreeDsl c n (d + 1)).1) ctx := by
          refine InvL_append hacc ?_
          intro i pn hi
          rcases hrc i pn hi with h | h | ⟨j, hj, hcj⟩
          · subst h
            rcases hctx with h2 | h2 | ⟨j, hcj⟩
            · exact Or.inl h2
            · exact Or.inr (Or.inl h2)
            · exact Or.inr (Or.inr (Or.inr ⟨j, hcj⟩))
          · exact Or.inr (Or.inl h)
          · exact Or.inr (Or.inr (Or.inl ⟨j, hj, hcj⟩))
        have hctx2 : n = ctx ∨ n ∈ skipNames ∨
            ∃ j : Nat, ((acc.1 ++ (subtreeDsl c n (d + 1)).1)[j]?.bind
              createdName) = some n := by
          rcases hctx with h2 | h2 | ⟨j, hcj⟩
          · exact Or.inl h2
          · exact Or.inr (Or.inl h2)
          · refine Or.inr (Or.inr ⟨j, ?_⟩)
            have hjl : j < acc.1.length := by
              cases hAj : acc.1[j]? with
              | none => rw [hAj] at hcj; simp at hcj
              | some a => exact (List.getElem?_eq_some.mp hAj).1
            rw [List.getElem?_append_left hjl]
            exact hcj
        exact subtreeFold_inv rest n d
          (acc.1 ++ (subtreeDsl c n (d + 1)).1,
           max acc.2 (subtreeDsl c n (d + 1)).2)
          ctx hfr hn hc hacc2 hctx2
end

/-- C1, amended: over any well-formed subtree (every non-Action element
carries a usable name and a DSL-translatable tag) and usable context
parent, each CREATE line that `_get_subtree_dsl` emits names as its UNDER
parent either the sample's context parent, one of the pre-existing default
objects, or a name introduced by an earlier CREATE line of the same
sample. The unrestricted claim is refuted by the ASSIGN counterexample: a
switch container's ASSIGN targets are emitted before the CREATE lines of
the children they name. -/
theorem reverse_ordering_amended (e : XElem) (p0 : String) (d : Nat)
    (hg : goodElem e = true) (hp : goodName p0 = true) :
    ∀ (i : Nat) (pn : String),
      (((subtreeDsl e p0 d).1[i]?).bind underParent) = some pn →
      pn = p0 ∨ pn ∈ skipNames ∨
      ∃ j : Nat, j < i ∧
        (((subtreeDsl e p0 d).1[j]?).bind createdName) = some pn :=
  subtree_inv e p0 d hg hp

/-- C1 amended witness: the counterexample tree itself obeys the UNDER
discipline — the third line CREATEs Grass UNDER SC, and SC is CREATEd by
the first line. -/
theorem reverse_ordering_amended_witness :
    goodElem cexTree = true ∧ goodName "Default Work Unit" = true ∧
    (((subtreeDsl cexTree "Default Work Unit" 0).1[2]?).bind underParent)
      = some "SC" ∧
    ("SC" = "Default Work Unit" ∨ "SC" ∈ skipNames ∨
      ∃ j : Nat, j < 2 ∧
        (((subtreeDsl cexTree "Default Work Unit" 0).1[j]?).bind createdName)
          = some "SC") :=
  ⟨by decide, by decide, by decide,
   reverse_ordering_amended cexTree "Default Work Unit" 0 (by decide)
     (by decide) 2 "SC" (by decide)⟩

end Wwise
